import Mathlib

/-!
Verification of the room-based physics synchronization service
(rapierphysicsplugin): a shallow embedding of the server state tracker,
room broadcast cadence, message dispatch, client reconciler, interpolation
buffer and the binary ROOM_STATE codec, with theorems checking the
specification's claims against the embedded code.

Conventions of the embedding:
* JavaScript numbers are modelled as exact rationals (`ℚ`) in the purely
  arithmetic-and-comparison components (state tracker, room counters,
  reconciler), and as reals (`ℝ`) in the components that use `Math.sqrt`,
  trigonometry or float serialization (codec, interpolation).
* A JavaScript `Map` is an association list with unique keys; `alGet`,
  `alSet`, `alDel` mirror `get`/`set`/`delete` (insertion order kept).
* Fallible parsing returns `Option`.
-/

/-- `Vec3` of the shared types module: a triple of coordinates. -/
structure Vec3 (α : Type) where
  x : α
  y : α
  z : α
deriving DecidableEq, Repr

/-- `Quat` of the shared types module: a quaternion. -/
structure Quat (α : Type) where
  x : α
  y : α
  z : α
  w : α
deriving DecidableEq, Repr

/-- `BodyState` of the shared types module. `fieldMask` is optional in the
source (`fieldMask?: number`), hence `Option ℕ`. -/
structure BodyState (α : Type) where
  id : String
  position : Vec3 α
  rotation : Quat α
  linVel : Vec3 α
  angVel : Vec3 α
  fieldMask : Option ℕ := none
deriving DecidableEq, Repr

/-- Field mask bit `FIELD_POSITION = 0x01`. -/
def FIELD_POSITION : ℕ := 1
/-- Field mask bit `FIELD_ROTATION = 0x02`. -/
def FIELD_ROTATION : ℕ := 2
/-- Field mask bit `FIELD_LIN_VEL = 0x04`. -/
def FIELD_LIN_VEL : ℕ := 4
/-- Field mask bit `FIELD_ANG_VEL = 0x08`. -/
def FIELD_ANG_VEL : ℕ := 8
/-- Field mask `FIELD_ALL = 0x0F`. -/
def FIELD_ALL : ℕ := 15

/-! ### Association lists standing for JavaScript `Map`s -/

/-- `Map.prototype.get`: the value at the first matching key. -/
def alGet {σ β : Type} [DecidableEq σ] (m : List (σ × β)) (k : σ) : Option β :=
  match m with
  | [] => none
  | (k', v) :: rest => if k' = k then some v else alGet rest k

/-- `Map.prototype.set`: overwrite in place, else append at the end. -/
def alSet {σ β : Type} [DecidableEq σ] (m : List (σ × β)) (k : σ) (v : β) :
    List (σ × β) :=
  match m with
  | [] => [(k, v)]
  | (k', v') :: rest => if k' = k then (k, v) :: rest else (k', v') :: alSet rest k v

/-- `Map.prototype.delete`: drop the matching entry. -/
def alDel {σ β : Type} [DecidableEq σ] (m : List (σ × β)) (k : σ) :
    List (σ × β) :=
  match m with
  | [] => []
  | (k', v) :: rest => if k' = k then rest else (k', v) :: alDel rest k

/-- `Map.prototype.keys`. -/
def alKeys {σ β : Type} (m : List (σ × β)) : List σ := m.map (·.1)

/-! ### The physics facade (server side)

The physics engine itself is out of scope (a black box per the spec); what the
state tracker reads from `PhysicsWorld` is `getSnapshot()` (the per-body
states, in body-map insertion order), `isBodySleeping(id)` and `hasBody(id)`,
so a world is embedded as the list of its bodies, each carrying the state that
`getSnapshot` would report together with the engine's sleeping flag. -/

/-- One entry of `PhysicsWorld`'s body map: the state `getSnapshot` reports
and the engine's `isSleeping()` flag. -/
structure WorldBody where
  state : BodyState ℚ
  sleeping : Bool
deriving DecidableEq, Repr

/-- The observable face of `PhysicsWorld`. -/
structure PhysicsWorldModel where
  bodies : List WorldBody
deriving DecidableEq, Repr

/-- `PhysicsWorld.getSnapshot()` (default `skipSleeping = false`): a fresh
`BodyState` per body, with no `fieldMask`. -/
def PhysicsWorldModel.getSnapshot (w : PhysicsWorldModel) : List (BodyState ℚ) :=
  w.bodies.map (fun b => { b.state with fieldMask := none })

/-- `PhysicsWorld.isBodySleeping(id)`: the body's flag, `false` when absent. -/
def PhysicsWorldModel.isBodySleeping (w : PhysicsWorldModel) (id : String) : Bool :=
  match w.bodies.find? (fun b => b.state.id == id) with
  | some b => b.sleeping
  | none => false

/-- `PhysicsWorld.hasBody(id)`. -/
def PhysicsWorldModel.hasBody (w : PhysicsWorldModel) (id : String) : Bool :=
  w.bodies.any (fun b => b.state.id == id)

/-! ### StateManager (server/state-manager) -/

/-- The fields of `StateManager`. -/
structure StateManagerState where
  lastBroadcastStates : List (String × BodyState ℚ)
  bodyIdToIndex : List (String × ℕ)
  bodyIndexToId : List (ℕ × String)
  nextBodyIndex : ℕ
deriving DecidableEq, Repr

/-- A fresh `StateManager`. -/
def smInit : StateManagerState := ⟨[], [], [], 0⟩

/-- `StateManager.ensureBodyIndex(id)`: the existing index, or allocate
`nextBodyIndex` and record it in both maps. Returns the index with the
updated manager. -/
def ensureBodyIndex (sm : StateManagerState) (id : String) :
    ℕ × StateManagerState :=
  match alGet sm.bodyIdToIndex id with
  | some index => (index, sm)
  | none =>
      let index := sm.nextBodyIndex
      (index,
        { sm with
          bodyIdToIndex := alSet sm.bodyIdToIndex id index
          bodyIndexToId := alSet sm.bodyIndexToId index id
          nextBodyIndex := sm.nextBodyIndex + 1 })

/-- `StateManager.removeBody(id)`: deletes the `lastBroadcastStates` entry
only; the index mapping is deliberately kept (indices are never reused). -/
def smRemoveBody (sm : StateManagerState) (id : String) : StateManagerState :=
  { sm with lastBroadcastStates := alDel sm.lastBroadcastStates id }

/-- `EPSILON = 0.0001` of state-manager. -/
def EPSILON : ℚ := 1 / 10000

/-- `vec3Changed`: some coordinate differs by strictly more than `EPSILON`. -/
def vec3Changed (a b : Vec3 ℚ) : Bool :=
  decide (|a.x - b.x| > EPSILON) || decide (|a.y - b.y| > EPSILON) ||
    decide (|a.z - b.z| > EPSILON)

/-- `quatChanged`: some component differs by strictly more than `EPSILON`. -/
def quatChanged (a b : Quat ℚ) : Bool :=
  decide (|a.x - b.x| > EPSILON) || decide (|a.y - b.y| > EPSILON) ||
    decide (|a.z - b.z| > EPSILON) || decide (|a.w - b.w| > EPSILON)

/-- `getChangedFields(a, b)`: the 4-bit change mask. -/
def getChangedFields (a b : BodyState ℚ) : ℕ :=
  (if vec3Changed a.position b.position then FIELD_POSITION else 0) |||
  (if quatChanged a.rotation b.rotation then FIELD_ROTATION else 0) |||
  (if vec3Changed a.linVel b.linVel then FIELD_LIN_VEL else 0) |||
  (if vec3Changed a.angVel b.angVel then FIELD_ANG_VEL else 0)

/-- One pass of `createDelta`'s selection loop over a body: the body object
as it stands after the loop (`fieldMask` mutated when selected) together
with whether it was pushed onto `changedBodies`. -/
def deltaStep (last : List (String × BodyState ℚ)) (w : PhysicsWorldModel)
    (b : BodyState ℚ) : BodyState ℚ × Bool :=
  match alGet last b.id with
  | none => ({ b with fieldMask := some FIELD_ALL }, true)
  | some prev =>
      if w.isBodySleeping b.id then (b, false)
      else
        let mask := getChangedFields prev b
        if mask ≠ 0 then ({ b with fieldMask := some mask }, true) else (b, false)

/-- The `RoomSnapshot & { isDelta }` record `createDelta` returns (the
wall-clock `timestamp` field is not modelled). -/
structure DeltaSnapshot where
  tick : ℕ
  bodies : List (BodyState ℚ)
  isDelta : Bool
deriving DecidableEq, Repr

/-- `StateManager.createDelta(world, tick)`: select changed bodies, then
overwrite the cache with every live body's current object, then drop cache
entries whose id is no longer in the world. -/
def createDelta (sm : StateManagerState) (w : PhysicsWorldModel) (tick : ℕ) :
    DeltaSnapshot × StateManagerState :=
  let allBodies := w.getSnapshot
  let sm1 := allBodies.foldl (fun s b => (ensureBodyIndex s b.id).2) sm
  let changedBodies := allBodies.filterMap (fun b =>
    let p := deltaStep sm.lastBroadcastStates w b
    if p.2 then some p.1 else none)
  let cache1 := allBodies.foldl
    (fun m b => alSet m (deltaStep sm.lastBroadcastStates w b).1.id
      (deltaStep sm.lastBroadcastStates w b).1)
    sm1.lastBroadcastStates
  let cache2 := cache1.filter (fun e => w.hasBody e.1)
  (⟨tick, changedBodies, true⟩, { sm1 with lastBroadcastStates := cache2 })

/-! ### Association-list lemmas -/

theorem alGet_alSet_self {σ β : Type} [DecidableEq σ] (m : List (σ × β))
    (k : σ) (v : β) : alGet (alSet m k v) k = some v := by
  induction m with
  | nil => simp [alGet, alSet]
  | cons p rest ih =>
      by_cases h : p.1 = k
      · simp [alSet, alGet, h]
      · simp [alSet, alGet, h, ih]

theorem alGet_alSet_ne {σ β : Type} [DecidableEq σ] (m : List (σ × β))
    (k k' : σ) (v : β) (h : k' ≠ k) : alGet (alSet m k' v) k = alGet m k := by
  have hkk : ¬ k = k' := fun hk => h hk.symm
  induction m with
  | nil => simpa [alGet, alSet] using h
  | cons p rest ih =>
      obtain ⟨pk, pv⟩ := p
      by_cases hp : pk = k'
      · subst hp
        simp [alSet, alGet, h, hkk]
      · by_cases hk : pk = k
        · simp [alSet, alGet, hp, hk, hkk]
        · simp [alSet, alGet, hp, hk, ih]

theorem alGet_eq_none_of_not_mem {σ β : Type} [DecidableEq σ]
    (m : List (σ × β)) (k : σ) (h : k ∉ alKeys m) : alGet m k = none := by
  induction m with
  | nil => rfl
  | cons p rest ih =>
      simp only [alKeys, List.map_cons, List.mem_cons, not_or] at h
      have hp : ¬ p.1 = k := fun hk => h.1 hk.symm
      simp [alGet, hp, ih (by simpa [alKeys] using h.2)]

theorem mem_alKeys_alSet {σ β : Type} [DecidableEq σ] (m : List (σ × β))
    (k : σ) (v : β) (k' : σ) :
    k' ∈ alKeys (alSet m k v) ↔ k' ∈ alKeys m ∨ k' = k := by
  induction m with
  | nil => simp [alSet, alKeys]
  | cons p rest ih =>
      obtain ⟨pk, pv⟩ := p
      by_cases h : pk = k
      · subst h
        have hset : alSet ((pk, pv) :: rest) pk v = (pk, v) :: rest := by
          simp [alSet]
        rw [hset]
        simp only [alKeys, List.map_cons, List.mem_cons]
        tauto
      · have hset : alSet ((pk, pv) :: rest) k v = (pk, pv) :: alSet rest k v := by
          simp [alSet, h]
        rw [hset]
        simp only [alKeys, List.map_cons, List.mem_cons] at ih ⊢
        tauto

theorem alKeys_alSet_nodup {σ β : Type} [DecidableEq σ] (m : List (σ × β))
    (k : σ) (v : β) (h : (alKeys m).Nodup) : (alKeys (alSet m k v)).Nodup := by
  induction m with
  | nil => simp [alSet, alKeys]
  | cons p rest ih =>
      obtain ⟨pk, pv⟩ := p
      simp only [alKeys, List.map_cons, List.nodup_cons] at h
      by_cases hp : pk = k
      · subst hp
        have hset : alSet ((pk, pv) :: rest) pk v = (pk, v) :: rest := by
          simp [alSet]
        rw [hset]
        simp only [alKeys, List.map_cons, List.nodup_cons]
        exact ⟨by simpa [alKeys] using h.1, h.2⟩
      · have hrest := ih h.2
        have hset : alSet ((pk, pv) :: rest) k v = (pk, pv) :: alSet rest k v := by
          simp [alSet, hp]
        rw [hset]
        simp only [alKeys, List.map_cons, List.nodup_cons]
        refine ⟨?_, hrest⟩
        intro hmem
        rcases (mem_alKeys_alSet rest k v pk).mp (by simpa [alKeys] using hmem) with h1 | h1
        · exact h.1 (by simpa [alKeys] using h1)
        · exact hp h1

theorem alKeys_filter_subset {σ β : Type} (m : List (σ × β))
    (p : σ × β → Bool) : alKeys (m.filter p) ⊆ alKeys m := by
  intro k hk
  simp only [alKeys, List.mem_map] at hk ⊢
  rcases hk with ⟨e, he, rfl⟩
  exact ⟨e, List.mem_of_mem_filter he, rfl⟩

theorem alGet_filter {σ β : Type} [DecidableEq σ] (m : List (σ × β))
    (p : σ × β → Bool) (k : σ) (hnd : (alKeys m).Nodup) :
    alGet (m.filter p) k =
      match alGet m k with
      | some v => if p (k, v) then some v else none
      | none => none := by
  induction m with
  | nil => simp [alGet]
  | cons e rest ih =>
      simp only [alKeys, List.map_cons, List.nodup_cons] at hnd
      by_cases hk : e.1 = k
      · subst hk
        by_cases hp : p e
        · simp [List.filter_cons, hp, alGet]
        · have : alGet (rest.filter p) e.1 = none :=
            alGet_eq_none_of_not_mem _ _
              (fun hmem => hnd.1 (by simpa [alKeys] using alKeys_filter_subset rest p hmem))
          simp [List.filter_cons, hp, alGet, this]
      · by_cases hp : p e
        · simp [List.filter_cons, hp, alGet, hk, ih hnd.2]
        · simp [List.filter_cons, hp, alGet, hk, ih hnd.2]

theorem alGet_foldl_alSet_not_mem {σ β : Type} [DecidableEq σ]
    (ps : List (σ × β)) (m : List (σ × β)) (k : σ)
    (h : k ∉ ps.map (fun p => p.1)) :
    alGet (ps.foldl (fun acc p => alSet acc p.1 p.2) m) k = alGet m k := by
  induction ps generalizing m with
  | nil => rfl
  | cons p rest ih =>
      simp only [List.map_cons, List.mem_cons, not_or] at h
      rw [List.foldl_cons, ih _ h.2, alGet_alSet_ne _ _ _ _ (fun hk => h.1 hk.symm)]

theorem alGet_foldl_alSet_mem {σ β : Type} [DecidableEq σ]
    (ps : List (σ × β)) (m : List (σ × β)) (k : σ) (v : β)
    (hmem : (k, v) ∈ ps) (hnd : (ps.map (fun p => p.1)).Nodup) :
    alGet (ps.foldl (fun acc p => alSet acc p.1 p.2) m) k = some v := by
  induction ps generalizing m with
  | nil => cases hmem
  | cons p rest ih =>
      simp only [List.map_cons, List.nodup_cons] at hnd
      rcases List.mem_cons.mp hmem with h | h
      · subst h
        rw [List.foldl_cons, alGet_foldl_alSet_not_mem _ _ _ (by simpa using hnd.1),
          alGet_alSet_self]
      · rw [List.foldl_cons]
        exact ih _ h hnd.2

theorem alKeys_foldl_alSet_nodup {σ β : Type} [DecidableEq σ]
    (ps : List (σ × β)) (m : List (σ × β)) (h : (alKeys m).Nodup) :
    (alKeys (ps.foldl (fun acc p => alSet acc p.1 p.2) m)).Nodup := by
  induction ps generalizing m with
  | nil => exact h
  | cons p rest ih => exact ih _ (alKeys_alSet_nodup _ _ _ h)

theorem alKeys_filter_nodup {σ β : Type} [DecidableEq σ] (m : List (σ × β))
    (p : σ × β → Bool) (h : (alKeys m).Nodup) : (alKeys (m.filter p)).Nodup :=
  ((List.filter_sublist m).map (fun q : σ × β => q.1)).nodup h

/-! ### Facts about `deltaStep` and `createDelta` -/

theorem deltaStep_id (last : List (String × BodyState ℚ)) (w : PhysicsWorldModel)
    (b : BodyState ℚ) : (deltaStep last w b).1.id = b.id := by
  unfold deltaStep
  cases alGet last b.id with
  | none => rfl
  | some prev =>
      by_cases hs : w.isBodySleeping b.id = true
      · simp [hs]
      · by_cases hm : getChangedFields prev b = 0
        · simp [hs, hm]
        · simp [hs, hm]

theorem deltaStep_fields (last : List (String × BodyState ℚ))
    (w : PhysicsWorldModel) (b : BodyState ℚ) :
    (deltaStep last w b).1.position = b.position ∧
      (deltaStep last w b).1.rotation = b.rotation ∧
      (deltaStep last w b).1.linVel = b.linVel ∧
      (deltaStep last w b).1.angVel = b.angVel := by
  unfold deltaStep
  cases alGet last b.id with
  | none => exact ⟨rfl, rfl, rfl, rfl⟩
  | some prev =>
      by_cases hs : w.isBodySleeping b.id = true
      · simp [hs]
      · by_cases hm : getChangedFields prev b = 0
        · simp [hs, hm]
        · simp [hs, hm]

theorem hasBody_of_mem_getSnapshot (w : PhysicsWorldModel) (b : BodyState ℚ)
    (hb : b ∈ w.getSnapshot) : w.hasBody b.id = true := by
  rcases List.mem_map.mp hb with ⟨wb, hwb, rfl⟩
  exact List.any_eq_true.mpr ⟨wb, hwb, by simp⟩

theorem ensureBodyIndex_lastBroadcast (sm : StateManagerState) (id : String) :
    ((ensureBodyIndex sm id).2).lastBroadcastStates = sm.lastBroadcastStates := by
  unfold ensureBodyIndex
  cases alGet sm.bodyIdToIndex id <;> rfl

theorem foldl_ensure_lastBroadcast (l : List (BodyState ℚ)) (sm : StateManagerState) :
    (l.foldl (fun s b => (ensureBodyIndex s b.id).2) sm).lastBroadcastStates =
      sm.lastBroadcastStates := by
  induction l generalizing sm with
  | nil => rfl
  | cons b rest ih => rw [List.foldl_cons, ih, ensureBodyIndex_lastBroadcast]

theorem createDelta_bodies_eq (sm : StateManagerState) (w : PhysicsWorldModel)
    (tick : ℕ) :
    (createDelta sm w tick).1.bodies =
      w.getSnapshot.filterMap (fun b =>
        let p := deltaStep sm.lastBroadcastStates w b
        if p.2 then some p.1 else none) := rfl

theorem createDelta_cache_eq (sm : StateManagerState) (w : PhysicsWorldModel)
    (tick : ℕ) :
    ((createDelta sm w tick).2).lastBroadcastStates =
      (w.getSnapshot.foldl
        (fun m b => alSet m (deltaStep sm.lastBroadcastStates w b).1.id
          (deltaStep sm.lastBroadcastStates w b).1)
        sm.lastBroadcastStates).filter (fun e => w.hasBody e.1) := by
  show ((w.getSnapshot.foldl
        (fun m b => alSet m (deltaStep sm.lastBroadcastStates w b).1.id
          (deltaStep sm.lastBroadcastStates w b).1)
        ((w.getSnapshot.foldl (fun s b => (ensureBodyIndex s b.id).2) sm).lastBroadcastStates)).filter
        (fun e => w.hasBody e.1)) = _
  rw [foldl_ensure_lastBroadcast]

/-- Claim C1: in `StateManager.createDelta(world, tick)`, a live body with no
entry in `lastBroadcastStates` is included in the delta with
`fieldMask = FIELD_ALL`; a live body with an entry that the physics facade
reports as sleeping is not included; any other live body is included iff the
4-bit change mask (component-wise strict comparison against the stored
previous state with threshold `1e-4`) is non-zero, and then with exactly
that mask. -/
theorem createDelta_selection (sm : StateManagerState) (w : PhysicsWorldModel)
    (tick : ℕ) (b : BodyState ℚ) (hb : b ∈ w.getSnapshot)
    (hnd : (w.getSnapshot.map (fun s => s.id)).Nodup) :
    (alGet sm.lastBroadcastStates b.id = none →
      { b with fieldMask := some FIELD_ALL } ∈ (createDelta sm w tick).1.bodies) ∧
    (∀ prev, alGet sm.lastBroadcastStates b.id = some prev →
      w.isBodySleeping b.id = true →
      ∀ d ∈ (createDelta sm w tick).1.bodies, d.id ≠ b.id) ∧
    (∀ prev, alGet sm.lastBroadcastStates b.id = some prev →
      w.isBodySleeping b.id = false →
      ((∃ d ∈ (createDelta sm w tick).1.bodies, d.id = b.id) ↔
          getChangedFields prev b ≠ 0) ∧
        (getChangedFields prev b ≠ 0 →
          { b with fieldMask := some (getChangedFields prev b) } ∈
            (createDelta sm w tick).1.bodies)) := by
  rw [createDelta_bodies_eq]
  have hinj := List.inj_on_of_nodup_map hnd
  refine ⟨?_, ?_, ?_⟩
  · intro hnone
    refine List.mem_filterMap.mpr ⟨b, hb, ?_⟩
    simp [deltaStep, hnone]
  · intro prev hprev hsleep d hd hid
    rcases List.mem_filterMap.mp hd with ⟨a, ha, hga⟩
    by_cases h2 : (deltaStep sm.lastBroadcastStates w a).2 = true
    · simp only [h2, if_true] at hga
      have haid : a.id = b.id := by
        rw [← Option.some_inj.mp hga] at hid
        rwa [deltaStep_id] at hid
      have hab : a = b := hinj ha hb haid
      subst hab
      simp [deltaStep, hprev, hsleep] at h2
    · simp only [Bool.not_eq_true] at h2
      simp [h2] at hga
  · intro prev hprev hawake
    constructor
    · constructor
      · rintro ⟨d, hd, hid⟩
        rcases List.mem_filterMap.mp hd with ⟨a, ha, hga⟩
        by_cases h2 : (deltaStep sm.lastBroadcastStates w a).2 = true
        · have haid : a.id = b.id := by
            simp only [h2, if_true] at hga
            rw [← Option.some_inj.mp hga] at hid
            rwa [deltaStep_id] at hid
          have hab : a = b := hinj ha hb haid
          subst hab
          intro hmask
          simp [deltaStep, hprev, hawake, hmask] at h2
        · simp only [Bool.not_eq_true] at h2
          simp [h2] at hga
      · intro hmask
        refine ⟨{ b with fieldMask := some (getChangedFields prev b) },
          List.mem_filterMap.mpr ⟨b, hb, ?_⟩, rfl⟩
        simp [deltaStep, hprev, hawake, hmask]
    · intro hmask
      refine List.mem_filterMap.mpr ⟨b, hb, ?_⟩
      simp [deltaStep, hprev, hawake, hmask]

/-- Example body and world used to instantiate the state-tracker theorems. -/
def exBodyA : BodyState ℚ :=
  { id := "a", position := ⟨0, 0, 0⟩, rotation := ⟨0, 0, 0, 1⟩,
    linVel := ⟨0, 0, 0⟩, angVel := ⟨0, 0, 0⟩ }

/-- A one-body world in which `exBodyA` is awake. -/
def exWorldA : PhysicsWorldModel := ⟨[⟨exBodyA, false⟩]⟩

/-- Concrete instantiation of `createDelta_selection`: a fresh manager sees a
body for the first time and includes it with `FIELD_ALL`. -/
theorem createDelta_selection_witness :
    exBodyA ∈ exWorldA.getSnapshot ∧
      (exWorldA.getSnapshot.map (fun s => s.id)).Nodup ∧
      (alGet smInit.lastBroadcastStates exBodyA.id = none →
        { exBodyA with fieldMask := some FIELD_ALL } ∈
          (createDelta smInit exWorldA 0).1.bodies) :=
  ⟨by decide, by decide,
    (createDelta_selection smInit exWorldA 0 exBodyA (by decide) (by decide)).1⟩

/-! ### Sequences of index-allocation operations (for the index-map
invariant): the two `StateManager` entry points that touch body identity. -/

/-- An operation on the `StateManager`'s identity maps: a call to
`ensureBodyIndex` (also performed by `createSnapshot`/`createDelta` per
body) or to `removeBody`. -/
inductive SMOp
  | ensure (id : String)
  | remove (id : String)

/-- Apply one operation. -/
def applySMOp (sm : StateManagerState) : SMOp → StateManagerState
  | SMOp.ensure id => (ensureBodyIndex sm id).2
  | SMOp.remove id => smRemoveBody sm id

/-- Run a call sequence. -/
def runSMOps (sm : StateManagerState) (ops : List SMOp) : StateManagerState :=
  ops.foldl applySMOp sm

/-- The identity maps are mutually inverse and every assigned index is below
`nextBodyIndex`. -/
def SMWellFormed (sm : StateManagerState) : Prop :=
  (∀ id idx, alGet sm.bodyIdToIndex id = some idx ↔
      alGet sm.bodyIndexToId idx = some id) ∧
  (∀ id idx, alGet sm.bodyIdToIndex id = some idx → idx < sm.nextBodyIndex)

theorem wf_applySMOp (sm : StateManagerState) (op : SMOp)
    (h : SMWellFormed sm) : SMWellFormed (applySMOp sm op) := by
  cases op with
  | remove id => exact h
  | ensure id =>
      show SMWellFormed (ensureBodyIndex sm id).2
      unfold ensureBodyIndex
      cases hget : alGet sm.bodyIdToIndex id with
      | some n => exact h
      | none =>
          refine ⟨fun id' idx' => ⟨?_, ?_⟩, fun id' idx' hidx' => ?_⟩
          · intro hA
            by_cases hid : id' = id
            · subst hid
              rw [alGet_alSet_self] at hA
              cases hA
              exact alGet_alSet_self _ _ _
            · rw [alGet_alSet_ne _ _ _ _ (fun hk => hid hk.symm)] at hA
              have hlt := h.2 id' idx' hA
              rw [alGet_alSet_ne _ _ _ _ (fun hk => Nat.lt_irrefl _ (hk ▸ hlt))]
              exact (h.1 id' idx').mp hA
          · intro hB
            by_cases hidx : idx' = sm.nextBodyIndex
            · subst hidx
              rw [alGet_alSet_self] at hB
              cases hB
              exact alGet_alSet_self _ _ _
            · rw [alGet_alSet_ne _ _ _ _ (fun hk => hidx hk.symm)] at hB
              have hA := (h.1 id' idx').mpr hB
              have hid : ¬ id = id' := by
                intro hk
                rw [← hk] at hA
                rw [hget] at hA
                cases hA
              rw [alGet_alSet_ne _ _ _ _ hid]
              exact hA
          · by_cases hid : id' = id
            · subst hid
              rw [alGet_alSet_self] at hidx'
              cases hidx'
              exact Nat.lt_succ_self _
            · rw [alGet_alSet_ne _ _ _ _ (fun hk => hid hk.symm)] at hidx'
              exact Nat.lt_succ_of_lt (h.2 id' idx' hidx')

theorem applySMOp_keeps_index (sm : StateManagerState) (op : SMOp)
    (id : String) (idx : ℕ)
    (hget : alGet sm.bodyIdToIndex id = some idx) :
    alGet (applySMOp sm op).bodyIdToIndex id = some idx := by
  cases op with
  | remove id' => exact hget
  | ensure id' =>
      show alGet ((ensureBodyIndex sm id').2).bodyIdToIndex id = some idx
      unfold ensureBodyIndex
      cases hget' : alGet sm.bodyIdToIndex id' with
      | some n => exact hget
      | none =>
          have hid : ¬ id' = id := by
            intro hk
            rw [hk, hget] at hget'
            cases hget'
          show alGet (alSet sm.bodyIdToIndex id' sm.nextBodyIndex) id = some idx
          rw [alGet_alSet_ne _ _ _ _ hid]
          exact hget

theorem wf_runSMOps (sm : StateManagerState) (ops : List SMOp)
    (h : SMWellFormed sm) : SMWellFormed (runSMOps sm ops) := by
  induction ops generalizing sm with
  | nil => exact h
  | cons op rest ih => exact ih _ (wf_applySMOp sm op h)

theorem runSMOps_keeps_index (sm : StateManagerState) (ops : List SMOp)
    (id : String) (idx : ℕ)
    (hget : alGet sm.bodyIdToIndex id = some idx) :
    alGet (runSMOps sm ops).bodyIdToIndex id = some idx := by
  induction ops generalizing sm with
  | nil => exact hget
  | cons op rest ih => exact ih _ (applySMOp_keeps_index sm op id idx hget)

theorem smInit_wf : SMWellFormed smInit :=
  ⟨fun id idx => ⟨fun h => by simp [smInit, alGet] at h,
    fun h => by simp [smInit, alGet] at h⟩,
   fun id idx h => by simp [smInit, alGet] at h⟩

/-- Claim C4: across any sequence of `ensureBodyIndex`/`removeBody` calls
from a fresh manager, `bodyIdToIndex` and `bodyIndexToId` stay mutually
inverse; `ensureBodyIndex` returns an already-assigned index unchanged and
otherwise hands out `nextBodyIndex`; `removeBody` never touches the index
maps; and an assigned index survives any further call sequence, so it is
never reused for a different id. -/
theorem stateManager_index_invariants (ops more : List SMOp) (id : String)
    (idx : ℕ) :
    (∀ i n, alGet (runSMOps smInit ops).bodyIdToIndex i = some n ↔
        alGet (runSMOps smInit ops).bodyIndexToId n = some i) ∧
    (alGet (runSMOps smInit ops).bodyIdToIndex id = some idx →
      (ensureBodyIndex (runSMOps smInit ops) id).1 = idx ∧
        (ensureBodyIndex (runSMOps smInit ops) id).2 = runSMOps smInit ops) ∧
    (alGet (runSMOps smInit ops).bodyIdToIndex id = none →
      (ensureBodyIndex (runSMOps smInit ops) id).1 =
        (runSMOps smInit ops).nextBodyIndex) ∧
    ((smRemoveBody (runSMOps smInit ops) id).bodyIdToIndex =
        (runSMOps smInit ops).bodyIdToIndex ∧
      (smRemoveBody (runSMOps smInit ops) id).bodyIndexToId =
        (runSMOps smInit ops).bodyIndexToId ∧
      (smRemoveBody (runSMOps smInit ops) id).nextBodyIndex =
        (runSMOps smInit ops).nextBodyIndex) ∧
    (alGet (runSMOps smInit ops).bodyIdToIndex id = some idx →
      alGet (runSMOps smInit (ops ++ more)).bodyIdToIndex id = some idx) := by
  have hwf := wf_runSMOps smInit ops smInit_wf
  refine ⟨hwf.1, ?_, ?_, ⟨rfl, rfl, rfl⟩, ?_⟩
  · intro hget
    unfold ensureBodyIndex
    rw [hget]
    exact ⟨rfl, rfl⟩
  · intro hget
    unfold ensureBodyIndex
    rw [hget]
  · intro hget
    rw [show runSMOps smInit (ops ++ more) = runSMOps (runSMOps smInit ops) more from
      List.foldl_append _ _ _ _]
    exact runSMOps_keeps_index _ more id idx hget

/-! ### Room tick and broadcast cadence (server/simulation-loop `Room`) -/

/-- `SERVER_TICK_RATE = 60` (shared protocol constants). -/
def SERVER_TICK_RATE : ℚ := 60
/-- `BROADCAST_RATE = 20`. -/
def BROADCAST_RATE : ℚ := 20

/-- JavaScript `Math.round` on an exact value: half-up. -/
def jsRoundQ (x : ℚ) : ℤ := ⌊x + 1 / 2⌋

/-- `BROADCAST_INTERVAL = Math.round(SERVER_TICK_RATE / BROADCAST_RATE)`. -/
def BROADCAST_INTERVAL : ℤ := jsRoundQ (SERVER_TICK_RATE / BROADCAST_RATE)

/-- A collision event as queued by the room (`CollisionEventData`; the
point/normal/impulse payload plays no role in the broadcast decision). -/
structure CollisionEvent where
  bodyIdA : String
  bodyIdB : String
  eventType : String
deriving DecidableEq, Repr

/-- The fields of the server `Room` relevant to ticking and broadcasting. -/
structure RoomModel where
  clients : List String
  world : PhysicsWorldModel
  currentTick : ℕ
  ticksSinceLastBroadcast : ℕ
  pendingCollisionEvents : List CollisionEvent
  stateManager : StateManagerState
deriving DecidableEq, Repr

/-- A frame broadcast to the room's clients: a binary `ROOM_STATE` delta or a
`COLLISION_EVENTS` message. -/
inductive RoomFrame
  | stateFrame (tick : ℕ) (bodies : List (BodyState ℚ))
  | collisionFrame (tick : ℕ) (events : List CollisionEvent)
deriving DecidableEq, Repr

/-- Whether a frame is a `ROOM_STATE` delta frame. -/
def RoomFrame.isState : RoomFrame → Bool
  | RoomFrame.stateFrame _ _ => true
  | _ => false

/-- Whether a frame is a `COLLISION_EVENTS` frame. -/
def RoomFrame.isCollision : RoomFrame → Bool
  | RoomFrame.collisionFrame _ _ => true
  | _ => false

/-- `Room.broadcastState()`: build the delta; emit a state frame only when it
carries at least one body; emit (and clear) the pending collision events when
non-empty. -/
def broadcastState (r : RoomModel) : RoomModel × List RoomFrame :=
  let dsm := createDelta r.stateManager r.world r.currentTick
  let stateFrames :=
    if dsm.1.bodies.length > 0 then [RoomFrame.stateFrame dsm.1.tick dsm.1.bodies]
    else []
  let collisionFrames :=
    if r.pendingCollisionEvents.length > 0 then
      [RoomFrame.collisionFrame r.currentTick r.pendingCollisionEvents]
    else []
  let pending' :=
    if r.pendingCollisionEvents.length > 0 then [] else r.pendingCollisionEvents
  ({ r with stateManager := dsm.2, pendingCollisionEvents := pending' },
    stateFrames ++ collisionFrames)

/-- `Room.tick()`. Steps 1–2 (input draining and the physics step) happen in
the external physics engine: `wPost` is the world after the step and
`newEvents` the collision events it returned. Then the counters are
incremented and, at the broadcast interval, `broadcastState` runs and the
since-last-broadcast counter resets. -/
def roomTick (r : RoomModel) (wPost : PhysicsWorldModel)
    (newEvents : List CollisionEvent) : RoomModel × List RoomFrame :=
  let pending1 :=
    if newEvents.length > 0 then r.pendingCollisionEvents ++ newEvents
    else r.pendingCollisionEvents
  let r1 := { r with
    world := wPost
    currentTick := r.currentTick + 1
    ticksSinceLastBroadcast := r.ticksSinceLastBroadcast + 1
    pendingCollisionEvents := pending1 }
  if (r1.ticksSinceLastBroadcast : ℤ) ≥ BROADCAST_INTERVAL then
    let br := broadcastState r1
    ({ br.1 with ticksSinceLastBroadcast := 0 }, br.2)
  else (r1, [])

theorem bi_eq : BROADCAST_INTERVAL = 3 := by
  norm_num [BROADCAST_INTERVAL, jsRoundQ, SERVER_TICK_RATE, BROADCAST_RATE]

theorem any_isState_frames (sb : List (BodyState ℚ)) (t1 t2 : ℕ)
    (ev : List CollisionEvent) :
    (((if sb.length > 0 then [RoomFrame.stateFrame t1 sb] else []) ++
      (if ev.length > 0 then [RoomFrame.collisionFrame t2 ev] else [])).any
        RoomFrame.isState = true) ↔ sb ≠ [] := by
  by_cases h1 : sb = [] <;> by_cases h2 : ev = [] <;>
    simp [h1, h2, RoomFrame.isState, List.length_pos]

theorem any_isCollision_frames (sb : List (BodyState ℚ)) (t1 t2 : ℕ)
    (ev : List CollisionEvent) :
    (((if sb.length > 0 then [RoomFrame.stateFrame t1 sb] else []) ++
      (if ev.length > 0 then [RoomFrame.collisionFrame t2 ev] else [])).any
        RoomFrame.isCollision = true) ↔ ev ≠ [] := by
  by_cases h1 : sb = [] <;> by_cases h2 : ev = [] <;>
    simp [h1, h2, RoomFrame.isCollision, List.length_pos]

theorem roomTick_pos (r : RoomModel) (wPost : PhysicsWorldModel)
    (newEvents : List CollisionEvent)
    (hge : ((r.ticksSinceLastBroadcast + 1 : ℕ) : ℤ) ≥ BROADCAST_INTERVAL) :
    roomTick r wPost newEvents =
      ({ (broadcastState { r with
            world := wPost
            currentTick := r.currentTick + 1
            ticksSinceLastBroadcast := r.ticksSinceLastBroadcast + 1
            pendingCollisionEvents :=
              if newEvents.length > 0 then r.pendingCollisionEvents ++ newEvents
              else r.pendingCollisionEvents }).1 with ticksSinceLastBroadcast := 0 },
        (broadcastState { r with
            world := wPost
            currentTick := r.currentTick + 1
            ticksSinceLastBroadcast := r.ticksSinceLastBroadcast + 1
            pendingCollisionEvents :=
              if newEvents.length > 0 then r.pendingCollisionEvents ++ newEvents
              else r.pendingCollisionEvents }).2) := by
  unfold roomTick
  dsimp only
  rw [if_pos hge]

theorem roomTick_neg (r : RoomModel) (wPost : PhysicsWorldModel)
    (newEvents : List CollisionEvent)
    (hge : ¬ ((r.ticksSinceLastBroadcast + 1 : ℕ) : ℤ) ≥ BROADCAST_INTERVAL) :
    roomTick r wPost newEvents =
      ({ r with
          world := wPost
          currentTick := r.currentTick + 1
          ticksSinceLastBroadcast := r.ticksSinceLastBroadcast + 1
          pendingCollisionEvents :=
            if newEvents.length > 0 then r.pendingCollisionEvents ++ newEvents
            else r.pendingCollisionEvents }, []) := by
  unfold roomTick
  dsimp only
  rw [if_neg hge]

theorem broadcastState_frames (r : RoomModel) :
    (broadcastState r).2 =
      (if (createDelta r.stateManager r.world r.currentTick).1.bodies.length > 0 then
        [RoomFrame.stateFrame (createDelta r.stateManager r.world r.currentTick).1.tick
          (createDelta r.stateManager r.world r.currentTick).1.bodies]
      else []) ++
      (if r.pendingCollisionEvents.length > 0 then
        [RoomFrame.collisionFrame r.currentTick r.pendingCollisionEvents]
      else []) := rfl

/-- Claim C5: on every `Room.tick`, after both counters are incremented a
broadcast happens iff the since-last-broadcast counter has reached
`BROADCAST_INTERVAL` (= 3) and the counter then resets to zero; within a
broadcast the state frame goes out iff the delta is non-empty while the
collision frame goes out iff the pending event list is non-empty, state
frame suppressed or not. -/
theorem roomTick_broadcast_cadence (r : RoomModel) (wPost : PhysicsWorldModel)
    (newEvents : List CollisionEvent) :
    let res := roomTick r wPost newEvents
    let counter := r.ticksSinceLastBroadcast + 1
    let pending :=
      if newEvents.length > 0 then r.pendingCollisionEvents ++ newEvents
      else r.pendingCollisionEvents
    let delta := (createDelta r.stateManager wPost (r.currentTick + 1)).1
    BROADCAST_INTERVAL = 3 ∧
    res.1.ticksSinceLastBroadcast =
      (if (counter : ℤ) ≥ BROADCAST_INTERVAL then 0 else counter) ∧
    ((counter : ℤ) ≥ BROADCAST_INTERVAL →
      (res.2.any RoomFrame.isState = true ↔ delta.bodies ≠ []) ∧
      (res.2.any RoomFrame.isCollision = true ↔ pending ≠ [])) ∧
    (¬ (counter : ℤ) ≥ BROADCAST_INTERVAL → res.2 = []) := by
  intro res counter pending delta
  by_cases hge : ((r.ticksSinceLastBroadcast + 1 : ℕ) : ℤ) ≥ BROADCAST_INTERVAL
  · have hres := roomTick_pos r wPost newEvents hge
    refine ⟨bi_eq, ?_, fun _ => ⟨?_, ?_⟩, fun hn => absurd hge hn⟩
    · show (roomTick r wPost newEvents).1.ticksSinceLastBroadcast = _
      rw [hres, if_pos hge]
    · show ((roomTick r wPost newEvents).2.any RoomFrame.isState = true ↔ _)
      rw [hres]
      dsimp only
      rw [broadcastState_frames]
      exact any_isState_frames _ _ _ _
    · show ((roomTick r wPost newEvents).2.any RoomFrame.isCollision = true ↔ _)
      rw [hres]
      dsimp only
      rw [broadcastState_frames]
      exact any_isCollision_frames _ _ _ _
  · have hres := roomTick_neg r wPost newEvents hge
    refine ⟨bi_eq, ?_, fun hg => absurd hg hge, fun _ => ?_⟩
    · show (roomTick r wPost newEvents).1.ticksSinceLastBroadcast = _
      rw [hres, if_neg hge]
    · show (roomTick r wPost newEvents).2 = []
      rw [hres]

/-! ### Message dispatch: `REMOVE_BODY` (server dispatcher + `PhysicsWorld`) -/

/-- A `ClientConnection` as the dispatcher sees it. -/
structure ClientConn where
  id : String
  roomId : Option String
deriving DecidableEq, Repr

/-- The server → client messages relevant to the `REMOVE_BODY` path. -/
inductive ServerMsg
  | errorMsg (message : String)
  | removeBodyMsg (bodyId : String)
deriving DecidableEq, Repr

/-- Whether a message is an `error{message}` frame. -/
def ServerMsg.isError : ServerMsg → Bool
  | ServerMsg.errorMsg _ => true
  | _ => false

/-- `PhysicsWorld.removeBody(id)`: a silent no-op when the id names no body,
otherwise the body is removed. -/
def physicsRemoveBody (w : PhysicsWorldModel) (id : String) : PhysicsWorldModel :=
  if w.hasBody id then ⟨w.bodies.filter (fun b => !(b.state.id == id))⟩ else w

/-- `Room.removeBody(bodyId)`: remove from the physics world and the state
manager, then broadcast `remove_body{bodyId}` to every client in the room.
Returns the updated room and the (recipient, message) sends. -/
def roomRemoveBody (r : RoomModel) (bodyId : String) :
    RoomModel × List (String × ServerMsg) :=
  ({ r with
      world := physicsRemoveBody r.world bodyId
      stateManager := smRemoveBody r.stateManager bodyId },
    r.clients.map (fun c => (c, ServerMsg.removeBodyMsg bodyId)))

/-- The `REMOVE_BODY` case of `PhysicsServer.handleMessage`: nothing happens
without a room assignment or with a dangling room id; otherwise
`room.removeBody` runs (no try/catch around it). Returns the messages sent. -/
def handleRemoveBody (conn : ClientConn) (rooms : List (String × RoomModel))
    (bodyId : String) : List (String × ServerMsg) :=
  match conn.roomId with
  | none => []
  | some rid =>
      match alGet rooms rid with
      | none => []
      | some room => (roomRemoveBody room bodyId).2

/-- Example connection for the `REMOVE_BODY` scenario. -/
def exConn : ClientConn := ⟨"client_1", some "r"⟩

/-- Example room with one client and an empty physics world. -/
def exRoomEmpty : RoomModel := ⟨["client_1"], ⟨[]⟩, 0, 0, [], smInit⟩

/-- Counterexample to claim C6 as stated: client_1 asks to remove body
"ghost", which is not in the room's world, and the server sends it no
`error{message}` frame at all (the only send is the `remove_body`
broadcast). -/
theorem removeBody_unknown_counterexample :
    exRoomEmpty.world.hasBody "ghost" = false ∧
    (handleRemoveBody exConn [("r", exRoomEmpty)] "ghost").any
      (fun p => p.1 == "client_1" && p.2.isError) = false := by
  constructor
  · decide
  · decide

/-- Claim C6, amended: when a client in a room sends `remove_body` with a
body id absent from the room's physics world, the server sends no error
frame; the removal is a silent no-op on the physics world and a
`remove_body{bodyId}` frame is still broadcast to every client in the room,
so the connection keeps being served. -/
theorem removeBody_unknown_silently_ignored (conn : ClientConn) (rid : String)
    (rooms : List (String × RoomModel)) (room : RoomModel) (bodyId : String)
    (hconn : conn.roomId = some rid)
    (hroom : alGet rooms rid = some room)
    (habsent : room.world.hasBody bodyId = false) :
    handleRemoveBody conn rooms bodyId =
      room.clients.map (fun c => (c, ServerMsg.removeBodyMsg bodyId)) ∧
    (∀ p ∈ handleRemoveBody conn rooms bodyId, p.2.isError = false) ∧
    (roomRemoveBody room bodyId).1.world = room.world := by
  have hout : handleRemoveBody conn rooms bodyId =
      room.clients.map (fun c => (c, ServerMsg.removeBodyMsg bodyId)) := by
    unfold handleRemoveBody
    rw [hconn]
    dsimp only
    rw [hroom]
    rfl
  refine ⟨hout, ?_, ?_⟩
  · intro p hp
    rw [hout] at hp
    rcases List.mem_map.mp hp with ⟨c, _, rfl⟩
    rfl
  · show physicsRemoveBody room.world bodyId = room.world
    unfold physicsRemoveBody
    rw [habsent]
    simp

/-- Concrete instantiation of `removeBody_unknown_silently_ignored` on the
example room. -/
theorem removeBody_unknown_silently_ignored_witness :
    exConn.roomId = some "r" ∧
    alGet [("r", exRoomEmpty)] "r" = some exRoomEmpty ∧
    exRoomEmpty.world.hasBody "ghost" = false ∧
    handleRemoveBody exConn [("r", exRoomEmpty)] "ghost" =
      exRoomEmpty.clients.map (fun c => (c, ServerMsg.removeBodyMsg "ghost")) :=
  ⟨rfl, by decide,  by decide,
    (removeBody_unknown_silently_ignored exConn "r" [("r", exRoomEmpty)]
      exRoomEmpty "ghost" rfl (by decide) (by decide)).1⟩

/-! ### Client interpolation buffer (client/interpolator)

The interpolator works on JavaScript floats that feed `Math.sqrt`, `acos`,
`sin`, `cos`; its scalars are embedded as `ℝ`. -/

/-- One `(timestamp, state)` entry of a body's interpolation buffer. -/
structure SnapshotEntry where
  timestamp : ℝ
  state : BodyState ℝ

/-- `INTERPOLATION_BUFFER_SIZE = 3`. -/
def INTERPOLATION_BUFFER_SIZE : ℕ := 3

/-- The fields of `Interpolator`. -/
structure InterpolatorState where
  buffers : List (String × List SnapshotEntry)
  renderDelay : ℝ

/-- `lerpVec3` of the interpolator module. -/
noncomputable def lerpVec3R (a b : Vec3 ℝ) (t : ℝ) : Vec3 ℝ :=
  ⟨a.x + (b.x - a.x) * t, a.y + (b.y - a.y) * t, a.z + (b.z - a.z) * t⟩

/-- `hermiteInterpolateVec3`. -/
noncomputable def hermiteInterpolateVec3 (p0 v0 p1 v1 : Vec3 ℝ) (t : ℝ) :
    Vec3 ℝ :=
  let t2 := t * t
  let t3 := t2 * t
  let h00 := 2 * t3 - 3 * t2 + 1
  let h10 := t3 - 2 * t2 + t
  let h01 := -2 * t3 + 3 * t2
  let h11 := t3 - t2
  ⟨h00 * p0.x + h10 * v0.x + h01 * p1.x + h11 * v1.x,
   h00 * p0.y + h10 * v0.y + h01 * p1.y + h11 * v1.y,
   h00 * p0.z + h10 * v0.z + h01 * p1.z + h11 * v1.z⟩

/-- `normalizeQuat`. -/
noncomputable def normalizeQuat (q : Quat ℝ) : Quat ℝ :=
  let len := Real.sqrt (q.x * q.x + q.y * q.y + q.z * q.z + q.w * q.w)
  if len = 0 then ⟨0, 0, 0, 1⟩ else ⟨q.x / len, q.y / len, q.z / len, q.w / len⟩

/-- `slerpQuat` of the interpolator module (shortest-arc sign flip,
normalized-lerp fallback when nearly collinear). -/
noncomputable def slerpQuat (a b : Quat ℝ) (t : ℝ) : Quat ℝ :=
  let dot0 := a.x * b.x + a.y * b.y + a.z * b.z + a.w * b.w
  let dot := if dot0 < 0 then -dot0 else dot0
  let bx := if dot0 < 0 then -b.x else b.x
  let by' := if dot0 < 0 then -b.y else b.y
  let bz := if dot0 < 0 then -b.z else b.z
  let bw := if dot0 < 0 then -b.w else b.w
  if dot > 0.9995 then
    normalizeQuat ⟨a.x + (bx - a.x) * t, a.y + (by' - a.y) * t,
      a.z + (bz - a.z) * t, a.w + (bw - a.w) * t⟩
  else
    let theta0 := Real.arccos dot
    let theta := theta0 * t
    let sinTheta := Real.sin theta
    let sinTheta0 := Real.sin theta0
    let s0 := Real.cos theta - dot * sinTheta / sinTheta0
    let s1 := sinTheta / sinTheta0
    ⟨s0 * a.x + s1 * bx, s0 * a.y + s1 * by', s0 * a.z + s1 * bz,
      s0 * a.w + s1 * bw⟩

/-- `interpolateBodyState`. -/
noncomputable def interpolateBodyState (a b : BodyState ℝ) (t : ℝ) :
    BodyState ℝ :=
  { id := a.id
    position := hermiteInterpolateVec3 a.position a.linVel b.position b.linVel t
    rotation := slerpQuat a.rotation b.rotation t
    linVel := lerpVec3R a.linVel b.linVel t
    angVel := lerpVec3R a.angVel b.angVel t
    fieldMask := none }

/-- `extrapolateBodyState`: linear extrapolation with velocity decay over
roughly half a second; orientation held. -/
noncomputable def extrapolateBodyState (state : BodyState ℝ) (dt : ℝ) :
    BodyState ℝ :=
  let decay := max 0 (1 - dt * 2)
  { id := state.id
    position := ⟨state.position.x + state.linVel.x * dt * decay,
      state.position.y + state.linVel.y * dt * decay,
      state.position.z + state.linVel.z * dt * decay⟩
    rotation := state.rotation
    linVel := ⟨state.linVel.x * decay, state.linVel.y * decay,
      state.linVel.z * decay⟩
    angVel := ⟨state.angVel.x * decay, state.angVel.y * decay,
      state.angVel.z * decay⟩
    fieldMask := none }

/-- The bracket-search loop of `getInterpolatedState`: the first adjacent
pair `(buffer[i], buffer[i+1])` with `buffer[i].timestamp ≤ renderTime ≤
buffer[i+1].timestamp`. -/
noncomputable def findBracket (renderTime : ℝ) :
    List SnapshotEntry → Option (SnapshotEntry × SnapshotEntry)
  | a :: b :: rest =>
      if a.timestamp ≤ renderTime ∧ b.timestamp ≥ renderTime then some (a, b)
      else findBracket renderTime (b :: rest)
  | _ => none

/-- `Interpolator.getInterpolatedState(bodyId, currentTime)`: `none` for a
missing or empty buffer (`buffer.length === 0`), otherwise bracket search,
then extrapolation past the last entry, else the first entry. -/
noncomputable def getInterpolatedState (ip : InterpolatorState)
    (bodyId : String) (currentTime : ℝ) : Option (BodyState ℝ) :=
  match alGet ip.buffers bodyId with
  | none => none
  | some [] => none
  | some (first :: rest) =>
      let renderTime := currentTime - ip.renderDelay
      match findBracket renderTime (first :: rest) with
      | some (older, newer) =>
          let t := (renderTime - older.timestamp) /
            (newer.timestamp - older.timestamp)
          some (interpolateBodyState older.state newer.state t)
      | none =>
          let last := (first :: rest).getLast (List.cons_ne_nil first rest)
          if renderTime > last.timestamp then
            some (extrapolateBodyState last.state
              ((renderTime - last.timestamp) / 1000))
          else
            some first.state

/-- `Interpolator.addSnapshot(bodyId, state, timestamp)`: append, then shift
from the front while the buffer is longer than
`INTERPOLATION_BUFFER_SIZE + 1`. -/
noncomputable def interpAddSnapshot (ip : InterpolatorState) (bodyId : String)
    (state : BodyState ℝ) (timestamp : ℝ) : InterpolatorState :=
  let buffer := (alGet ip.buffers bodyId).getD []
  let buffer1 := buffer ++ [⟨timestamp, state⟩]
  let buffer2 :=
    if buffer1.length > INTERPOLATION_BUFFER_SIZE + 1 then
      buffer1.drop (buffer1.length - (INTERPOLATION_BUFFER_SIZE + 1))
    else buffer1
  { ip with buffers := alSet ip.buffers bodyId buffer2 }

theorem findBracket_none_of_all_lt (rt : ℝ) (l : List SnapshotEntry)
    (h : ∀ e ∈ l, e.timestamp < rt) : findBracket rt l = none := by
  induction l with
  | nil => rfl
  | cons a rest ih =>
      cases rest with
      | nil => rfl
      | cons b rest' =>
          unfold findBracket
          rw [if_neg]
          · exact ih (fun e he => h e (List.mem_cons_of_mem a he))
          · rintro ⟨-, hge⟩
            exact absurd (h b (by simp)) (not_lt.mpr hge)

theorem findBracket_none_of_all_gt (rt : ℝ) (l : List SnapshotEntry)
    (h : ∀ e ∈ l, rt < e.timestamp) : findBracket rt l = none := by
  induction l with
  | nil => rfl
  | cons a rest ih =>
      cases rest with
      | nil => rfl
      | cons b rest' =>
          unfold findBracket
          rw [if_neg]
          · exact ih (fun e he => h e (List.mem_cons_of_mem a he))
          · rintro ⟨hle, -⟩
            exact absurd (h a (by simp)) (not_lt.mpr hle)

theorem le_getLast_of_sorted (l : List SnapshotEntry) (hne : l ≠ [])
    (hsort : l.Pairwise (fun u v => u.timestamp ≤ v.timestamp)) :
    ∀ e ∈ l, e.timestamp ≤ (l.getLast hne).timestamp := by
  induction l with
  | nil => cases hne rfl
  | cons a rest ih =>
      intro e he
      cases rest with
      | nil =>
          rcases List.mem_singleton.mp he with rfl
          exact le_refl _
      | cons b rest' =>
          rw [List.getLast_cons (by simp)]
          rcases List.mem_cons.mp he with rfl | he'
          · exact le_trans
              ((List.pairwise_cons.mp hsort).1 _ (List.getLast_mem _))
              (le_refl _)
          · exact ih (by simp) (List.pairwise_cons.mp hsort).2 e he'

theorem head_le_of_sorted (l : List SnapshotEntry) (hne : l ≠ [])
    (hsort : l.Pairwise (fun u v => u.timestamp ≤ v.timestamp)) :
    ∀ e ∈ l, (l.head hne).timestamp ≤ e.timestamp := by
  cases l with
  | nil => cases hne rfl
  | cons a rest =>
      intro e he
      rcases List.mem_cons.mp he with rfl | he'
      · exact le_refl _
      · exact (List.pairwise_cons.mp hsort).1 e he'

/-- Claim C8: with a non-empty time-sorted buffer for `bodyId` and
`renderTime = now − renderDelay`: past the newest entry by `dt` seconds the
result is the newest state extrapolated (position advanced by
`linVel·dt·decay` with `decay = max 0 (1 − 2·dt)`, velocities scaled by
`decay`, rotation unchanged); before the oldest entry the oldest state is
returned verbatim. -/
theorem interpolator_edge_behavior (ip : InterpolatorState) (bodyId : String)
    (currentTime : ℝ) (buffer : List SnapshotEntry)
    (hbuf : alGet ip.buffers bodyId = some buffer)
    (hne : buffer ≠ [])
    (hsort : buffer.Pairwise (fun u v => u.timestamp ≤ v.timestamp)) :
    let renderTime := currentTime - ip.renderDelay
    let last := buffer.getLast hne
    let dt := (renderTime - last.timestamp) / 1000
    let decay := max 0 (1 - dt * 2)
    (renderTime > last.timestamp →
      getInterpolatedState ip bodyId currentTime =
        some { id := last.state.id
               position := ⟨last.state.position.x + last.state.linVel.x * dt * decay,
                 last.state.position.y + last.state.linVel.y * dt * decay,
                 last.state.position.z + last.state.linVel.z * dt * decay⟩
               rotation := last.state.rotation
               linVel := ⟨last.state.linVel.x * decay, last.state.linVel.y * decay,
                 last.state.linVel.z * decay⟩
               angVel := ⟨last.state.angVel.x * decay, last.state.angVel.y * decay,
                 last.state.angVel.z * decay⟩
               fieldMask := none }) ∧
    (renderTime < (buffer.head hne).timestamp →
      getInterpolatedState ip bodyId currentTime =
        some (buffer.head hne).state) := by
  intro renderTime last dt decay
  cases buffer with
  | nil => exact absurd rfl hne
  | cons first rest =>
      constructor
      · intro hgt
        have hall : ∀ e ∈ (first :: rest), e.timestamp < renderTime := fun e he =>
          lt_of_le_of_lt (le_getLast_of_sorted (first :: rest) hne hsort e he) hgt
        have hbr := findBracket_none_of_all_lt renderTime (first :: rest) hall
        unfold getInterpolatedState
        rw [hbuf]
        dsimp only
        rw [hbr]
        dsimp only
        rw [if_pos hgt]
        rfl
      · intro hlt
        have hall : ∀ e ∈ (first :: rest), renderTime < e.timestamp := fun e he =>
          lt_of_lt_of_le hlt (head_le_of_sorted (first :: rest) hne hsort e he)
        have hbr := findBracket_none_of_all_gt renderTime (first :: rest) hall
        have hnogt : ¬ renderTime > last.timestamp :=
          not_lt.mpr (le_of_lt (hall _ (List.getLast_mem hne)))
        unfold getInterpolatedState
        rw [hbuf]
        dsimp only
        rw [hbr]
        dsimp only
        rw [if_neg hnogt]
        rfl

/-- Example client-side body state used to instantiate the interpolator
theorem. -/
noncomputable def exBodyR : BodyState ℝ :=
  { id := "a", position := ⟨0, 0, 0⟩, rotation := ⟨0, 0, 0, 1⟩,
    linVel := ⟨1, 0, 0⟩, angVel := ⟨0, 0, 0⟩, fieldMask := none }

/-- Example snapshot entry used to instantiate the interpolator theorem. -/
noncomputable def exEntry : SnapshotEntry := ⟨0, exBodyR⟩

/-- Example interpolator with a single-entry buffer and zero render delay. -/
noncomputable def exInterp : InterpolatorState := ⟨[("a", [exEntry])], 0⟩

/-- Concrete instantiation of `interpolator_edge_behavior`: with a
single-entry buffer at time 0 and render time 500 ms, the result is the
entry extrapolated by half a second. -/
theorem interpolator_edge_behavior_witness :
    alGet exInterp.buffers "a" = some [exEntry] ∧
    getInterpolatedState exInterp "a" 500 =
      some (extrapolateBodyState exEntry.state
        (((500 : ℝ) - exInterp.renderDelay - exEntry.timestamp) / 1000)) :=
  ⟨rfl,
    (interpolator_edge_behavior exInterp "a" 500 [exEntry] rfl
      (List.cons_ne_nil _ _) (List.pairwise_singleton _ _)).1
      (by norm_num [exInterp, exEntry, List.getLast_singleton])⟩

/-! ### Client state reconciler (client/state-reconciler) -/

/-- One action inside a `ClientInput` batch (its `data` payload plays no role
in the embedded components). -/
structure InputAction where
  actionType : String
  bodyId : String
deriving DecidableEq, Repr

/-- `ClientInput`: an input batch tagged with a tick and sequence number. -/
structure ClientInput where
  tick : ℕ
  sequenceNum : ℕ
  actions : List InputAction
deriving DecidableEq, Repr

/-- A `RoomSnapshot` as the reconciler receives it. -/
structure RoomSnapshotR where
  tick : ℕ
  timestamp : ℝ
  bodies : List (BodyState ℝ)

/-- `ReconciliationResult`. -/
structure ReconciliationResult where
  localCorrections : List (String × BodyState ℝ)
  remoteStates : List (String × BodyState ℝ)

/-- The fields of `StateReconciler`. -/
structure StateReconcilerState where
  interpolator : InterpolatorState
  localBodyIds : List String
  pendingInputs : List ClientInput
  lastServerTick : ℕ

/-- `StateReconciler.processServerState(snapshot)`: record the server tick,
drop acknowledged pending inputs (tick ≤ server tick), then partition the
frame's bodies into local corrections and interpolated remote states. -/
noncomputable def processServerState (rc : StateReconcilerState)
    (snapshot : RoomSnapshotR) (currentTime : ℝ) :
    StateReconcilerState × ReconciliationResult :=
  let pending' := rc.pendingInputs.filter
    (fun input => decide (input.tick > snapshot.tick))
  let step := fun (acc : InterpolatorState × ReconciliationResult)
      (body : BodyState ℝ) =>
    if body.id ∈ rc.localBodyIds then
      (acc.1,
        { acc.2 with
          localCorrections := alSet acc.2.localCorrections body.id body })
    else
      let interp1 := interpAddSnapshot acc.1 body.id body snapshot.timestamp
      match getInterpolatedState interp1 body.id currentTime with
      | some st =>
          (interp1,
            { acc.2 with remoteStates := alSet acc.2.remoteStates body.id st })
      | none => (interp1, acc.2)
  let res := snapshot.bodies.foldl step (rc.interpolator, ⟨[], []⟩)
  ({ rc with
      interpolator := res.1
      pendingInputs := pending'
      lastServerTick := snapshot.tick },
    res.2)

/-- Claim C7: after `processServerState` on a frame at tick `T`, every
pending input with tick ≤ T is gone and every pending input with tick > T
is retained, in the original order (the retained list is a sublist of the
old one). -/
theorem processServerState_pending (rc : StateReconcilerState)
    (snapshot : RoomSnapshotR) (currentTime : ℝ) :
    let pending' := ((processServerState rc snapshot currentTime).1).pendingInputs
    pending'.Sublist rc.pendingInputs ∧
    (∀ input ∈ rc.pendingInputs,
      (input.tick ≤ snapshot.tick → input ∉ pending') ∧
      (input.tick > snapshot.tick → input ∈ pending')) := by
  intro pending'
  have heq : pending' = rc.pendingInputs.filter
      (fun input => decide (input.tick > snapshot.tick)) := rfl
  rw [heq]
  refine ⟨List.filter_sublist _, fun input hmem => ⟨?_, ?_⟩⟩
  · intro hle hin
    have := (List.mem_filter.mp hin).2
    simp only [decide_eq_true_eq] at this
    exact absurd this (not_lt.mpr hle)
  · intro hgt
    exact List.mem_filter.mpr ⟨hmem, by simpa using hgt⟩

/-- Claim C9: after `createDelta`, the `lastBroadcastStates` cache has
exactly one entry per live body, each holding that body's current state
(sleeping bodies included), and entries for ids no longer in the world are
gone. -/
theorem createDelta_cache_exact (sm : StateManagerState) (w : PhysicsWorldModel)
    (tick : ℕ)
    (hnd : (w.getSnapshot.map (fun s => s.id)).Nodup)
    (hkeys : (alKeys sm.lastBroadcastStates).Nodup) :
    (alKeys ((createDelta sm w tick).2).lastBroadcastStates).Nodup ∧
    (∀ b ∈ w.getSnapshot,
      ∃ c, alGet ((createDelta sm w tick).2).lastBroadcastStates b.id = some c ∧
        c.id = b.id ∧ c.position = b.position ∧ c.rotation = b.rotation ∧
        c.linVel = b.linVel ∧ c.angVel = b.angVel) ∧
    (∀ id ∈ alKeys ((createDelta sm w tick).2).lastBroadcastStates,
      w.hasBody id = true) := by
  rw [createDelta_cache_eq]
  have hfold :
      w.getSnapshot.foldl
        (fun m b => alSet m (deltaStep sm.lastBroadcastStates w b).1.id
          (deltaStep sm.lastBroadcastStates w b).1)
        sm.lastBroadcastStates =
      (w.getSnapshot.map (fun b =>
        ((deltaStep sm.lastBroadcastStates w b).1.id,
          (deltaStep sm.lastBroadcastStates w b).1))).foldl
        (fun acc p => alSet acc p.1 p.2) sm.lastBroadcastStates := by
    rw [List.foldl_map]
  have hps :
      ((w.getSnapshot.map (fun b =>
        ((deltaStep sm.lastBroadcastStates w b).1.id,
          (deltaStep sm.lastBroadcastStates w b).1))).map (fun p => p.1)) =
        w.getSnapshot.map (fun s => s.id) := by
    rw [List.map_map]
    exact List.map_congr_left (fun a _ => deltaStep_id _ _ _)
  have hnd1 : (alKeys (w.getSnapshot.foldl
      (fun m b => alSet m (deltaStep sm.lastBroadcastStates w b).1.id
        (deltaStep sm.lastBroadcastStates w b).1)
      sm.lastBroadcastStates)).Nodup := by
    rw [hfold]
    exact alKeys_foldl_alSet_nodup _ _ hkeys
  refine ⟨alKeys_filter_nodup _ _ hnd1, ?_, ?_⟩
  · intro b hb
    have hget : alGet (w.getSnapshot.foldl
        (fun m b => alSet m (deltaStep sm.lastBroadcastStates w b).1.id
          (deltaStep sm.lastBroadcastStates w b).1)
        sm.lastBroadcastStates) b.id =
        some (deltaStep sm.lastBroadcastStates w b).1 := by
      rw [hfold]
      refine alGet_foldl_alSet_mem _ _ _ _ ?_ (by rw [hps]; exact hnd)
      exact List.mem_map.mpr ⟨b, hb, by rw [deltaStep_id]⟩
    have hfields := deltaStep_fields sm.lastBroadcastStates w b
    refine ⟨(deltaStep sm.lastBroadcastStates w b).1, ?_,
      deltaStep_id _ _ _, hfields.1, hfields.2.1, hfields.2.2.1, hfields.2.2.2⟩
    rw [alGet_filter _ _ _ hnd1, hget]
    simp [hasBody_of_mem_getSnapshot w b hb]
  · intro id hid
    rcases List.mem_map.mp hid with ⟨e, he, rfl⟩
    exact (List.mem_filter.mp he).2

/-- Concrete instantiation of `createDelta_cache_exact` on a one-body world
with a fresh manager. -/
theorem createDelta_cache_exact_witness :
    (exWorldA.getSnapshot.map (fun s => s.id)).Nodup ∧
      (alKeys smInit.lastBroadcastStates).Nodup ∧
      (alKeys ((createDelta smInit exWorldA 0).2).lastBroadcastStates).Nodup :=
  ⟨by decide, by decide,
    (createDelta_cache_exact smInit exWorldA 0 (by decide) (by decide)).1⟩

/-! ### Smallest-three quaternion compression (shared/binary-state-codec)

Codec scalars are JavaScript floats feeding `Math.sqrt`; they are embedded
as `ℝ`, with the source's float literals read as exact values. -/

/-- The clamp bound `0.7071067811865476` (the source's written value of
`1/√2`). -/
noncomputable def QUAT_CLAMP : ℝ := 0.7071067811865476

/-- `QUAT_SCALE = 32767 / 0.7071067811865476`. -/
noncomputable def QUAT_SCALE : ℝ := 32767 / QUAT_CLAMP

/-- JavaScript `Math.round`: round half up. -/
noncomputable def jsRound (x : ℝ) : ℤ := ⌊x + 1 / 2⌋

/-- `DataView.setInt16`: wrap to a signed 16-bit value. -/
def wrapI16 (n : ℤ) : ℤ := (n + 32768) % 65536 - 32768

/-- One small component of `encodeSmallestThree`: clamp to `±QUAT_CLAMP`,
scale, `Math.round`, store as i16. -/
noncomputable def quantizeComponent (x : ℝ) : ℤ :=
  wrapI16 (jsRound (max (-QUAT_CLAMP) (min QUAT_CLAMP x) * QUAT_SCALE))

/-- The component array `[q.x, q.y, q.z, q.w]` (index 3 and past-the-end
both land on `w`; the codec only uses indices 0..3). -/
def Quat.comp (q : Quat ℝ) : ℕ → ℝ
  | 0 => q.x
  | 1 => q.y
  | 2 => q.z
  | _ => q.w

/-- The largest-|component| search loop of `encodeSmallestThree`: start at
index 0, move only on strictly greater magnitude. -/
noncomputable def maxAbsIdx (q : Quat ℝ) : ℕ :=
  let m0 : ℕ × ℝ := (0, |q.x|)
  let m1 := if |q.y| > m0.2 then (1, |q.y|) else m0
  let m2 := if |q.z| > m1.2 then (2, |q.z|) else m1
  let m3 := if |q.w| > m2.2 then (3, |q.w|) else m2
  m3.1

/-- The 7-byte payload of the smallest-three encoding: the index byte and
the three quantized components. -/
structure SmallestThree where
  idx : ℕ
  a : ℤ
  b : ℤ
  c : ℤ
deriving DecidableEq, Repr

/-- `encodeSmallestThree`: negate the quaternion when the largest component
is negative, then quantize the other three components in index order. -/
noncomputable def encodeSmallestThree (q : Quat ℝ) : SmallestThree :=
  let maxIdx := maxAbsIdx q
  let sign : ℝ := if q.comp maxIdx < 0 then -1 else 1
  match maxIdx with
  | 0 => ⟨0, quantizeComponent (q.y * sign), quantizeComponent (q.z * sign),
      quantizeComponent (q.w * sign)⟩
  | 1 => ⟨1, quantizeComponent (q.x * sign), quantizeComponent (q.z * sign),
      quantizeComponent (q.w * sign)⟩
  | 2 => ⟨2, quantizeComponent (q.x * sign), quantizeComponent (q.y * sign),
      quantizeComponent (q.w * sign)⟩
  | n => ⟨n, quantizeComponent (q.x * sign), quantizeComponent (q.y * sign),
      quantizeComponent (q.z * sign)⟩

/-- `decodeSmallestThree`: divide back by the scale, reconstruct the largest
component as `√(max 0 (1 − a² − b² − c²))`, reassemble in index order. -/
noncomputable def decodeSmallestThree (e : SmallestThree) : Quat ℝ :=
  let a : ℝ := (e.a : ℝ) / QUAT_SCALE
  let b : ℝ := (e.b : ℝ) / QUAT_SCALE
  let c : ℝ := (e.c : ℝ) / QUAT_SCALE
  let largest := Real.sqrt (max 0 (1 - (a * a + b * b + c * c)))
  match e.idx with
  | 0 => ⟨largest, a, b, c⟩
  | 1 => ⟨a, largest, b, c⟩
  | 2 => ⟨a, b, largest, c⟩
  | _ => ⟨a, b, c, largest⟩

/-! ### f32 serialization -/

/-- Round-to-nearest, ties to even, to an integer. -/
noncomputable def rneInt (x : ℝ) : ℤ :=
  let f := ⌊x⌋
  if x - f < 1 / 2 then f
  else if x - f > 1 / 2 then f + 1
  else if 2 ∣ f then f else f + 1

/-- IEEE-754 binary32 rounding of a real value, as performed by
`DataView.setFloat32` (overflow to infinity is not modelled; the spec's
claims use in-range values): scale by the exponent-determined power of two,
round to nearest-even, scale back. -/
noncomputable def f32round (x : ℝ) : ℝ :=
  if x = 0 then 0
  else
    let e : ℤ := Int.log 2 |x|
    let scale : ℤ := if -126 ≤ e then 23 - e else 149
    (rneInt (x * 2 ^ scale) : ℝ) / 2 ^ scale

/-! ### Binary ROOM_STATE codec (shared/binary-state-codec)

The byte stream is embedded as a token stream: each `DataView` write is one
token (multi-byte scalars become single tokens, so the source's offset
arithmetic becomes token order; a body id's UTF-8 bytes become one `utf8`
token after its length byte). -/

/-- One scalar write of the wire stream. `f32` carries the value the four
written bytes decode back to. -/
inductive WireTok
  | u8 (v : ℕ)
  | u16 (v : ℕ)
  | u32 (v : ℕ)
  | i16 (v : ℤ)
  | f32 (v : ℝ)
  | f64 (v : ℝ)
  | utf8 (s : String)

/-- `OPCODE_ROOM_STATE = 0x01`. -/
def OPCODE_ROOM_STATE : ℕ := 1
/-- `FLAG_IS_DELTA = 0x01`. -/
def FLAG_IS_DELTA : ℕ := 1
/-- `FLAG_NUMERIC_IDS = 0x02`. -/
def FLAG_NUMERIC_IDS : ℕ := 2

/-- `RoomStateMessage` (tick, timestamp, delta flag, bodies). -/
structure RoomStateMessage where
  tick : ℕ
  timestamp : ℝ
  isDelta : Bool
  bodies : List (BodyState ℝ)

/-- The three `setFloat32` writes of a vector field. -/
noncomputable def f32Toks (v : Vec3 ℝ) : List WireTok :=
  [WireTok.f32 (f32round v.x), WireTok.f32 (f32round v.y),
    WireTok.f32 (f32round v.z)]

/-- The id tokens of one body: a u16 index under numeric ids (a missing map
entry writes 0, as `setUint16(undefined)` does), else a u8 length byte
(wrapping, as `setUint8` does) and the UTF-8 id bytes. -/
noncomputable def encodeIdToks (useNumeric : Bool)
    (idToIndex : List (String × ℕ)) (b : BodyState ℝ) : List WireTok :=
  if useNumeric then [WireTok.u16 (((alGet idToIndex b.id).getD 0) % 65536)]
  else [WireTok.u8 (b.id.utf8ByteSize % 256), WireTok.utf8 b.id]

/-- The mask byte and masked field tokens of one body
(`mask = body.fieldMask ?? FIELD_ALL`). -/
noncomputable def encodeFieldToks (b : BodyState ℝ) : List WireTok :=
  let mask := b.fieldMask.getD FIELD_ALL
  [WireTok.u8 (mask % 256)] ++
  (if mask &&& FIELD_POSITION ≠ 0 then f32Toks b.position else []) ++
  (if mask &&& FIELD_ROTATION ≠ 0 then
    [WireTok.u8 ((encodeSmallestThree b.rotation).idx % 256),
     WireTok.i16 (encodeSmallestThree b.rotation).a,
     WireTok.i16 (encodeSmallestThree b.rotation).b,
     WireTok.i16 (encodeSmallestThree b.rotation).c]
   else []) ++
  (if mask &&& FIELD_LIN_VEL ≠ 0 then f32Toks b.linVel else []) ++
  (if mask &&& FIELD_ANG_VEL ≠ 0 then f32Toks b.angVel else [])

/-- All tokens of one body. -/
noncomputable def encodeBodyToks (useNumeric : Bool)
    (idToIndex : List (String × ℕ)) (b : BodyState ℝ) : List WireTok :=
  encodeIdToks useNumeric idToIndex b ++ encodeFieldToks b

/-- `encodeRoomState(msg, idToIndex?)`: 16-byte header (opcode, u32 tick,
f64 timestamp, flags, u16 body count) followed by the bodies. -/
noncomputable def encodeRoomState (msg : RoomStateMessage)
    (idToIndex : Option (List (String × ℕ))) : List WireTok :=
  let useNumeric := match idToIndex with
    | some m => !m.isEmpty
    | none => false
  let m := idToIndex.getD []
  let flags := (if msg.isDelta then FLAG_IS_DELTA else 0) |||
    (if useNumeric then FLAG_NUMERIC_IDS else 0)
  [WireTok.u8 OPCODE_ROOM_STATE, WireTok.u32 (msg.tick % 4294967296),
   WireTok.f64 msg.timestamp, WireTok.u8 flags,
   WireTok.u16 (msg.bodies.length % 65536)] ++
  (msg.bodies.map (encodeBodyToks useNumeric m)).flatten

/-- `DataView.getUint8` on the token stream. -/
def readU8 : List WireTok → Option (ℕ × List WireTok)
  | WireTok.u8 v :: rest => some (v, rest)
  | _ => none

/-- `DataView.getUint16`. -/
def readU16 : List WireTok → Option (ℕ × List WireTok)
  | WireTok.u16 v :: rest => some (v, rest)
  | _ => none

/-- `DataView.getUint32`. -/
def readU32 : List WireTok → Option (ℕ × List WireTok)
  | WireTok.u32 v :: rest => some (v, rest)
  | _ => none

/-- `DataView.getInt16`. -/
def readI16 : List WireTok → Option (ℤ × List WireTok)
  | WireTok.i16 v :: rest => some (v, rest)
  | _ => none

/-- `DataView.getFloat32`. -/
def readF32 : List WireTok → Option (ℝ × List WireTok)
  | WireTok.f32 v :: rest => some (v, rest)
  | _ => none

/-- `DataView.getFloat64`. -/
def readF64 : List WireTok → Option (ℝ × List WireTok)
  | WireTok.f64 v :: rest => some (v, rest)
  | _ => none

/-- `TextDecoder.decode` of the id byte range. -/
def readUtf8 : List WireTok → Option (String × List WireTok)
  | WireTok.utf8 s :: rest => some (s, rest)
  | _ => none

/-- Three `getFloat32` reads. -/
def readVec3F32 (toks : List WireTok) : Option (Vec3 ℝ × List WireTok) := do
  let (x, t1) ← readF32 toks
  let (y, t2) ← readF32 t1
  let (z, t3) ← readF32 t2
  pure (⟨x, y, z⟩, t3)

/-- The smallest-three reads of the rotation field. -/
noncomputable def readQuatS3 (toks : List WireTok) :
    Option (Quat ℝ × List WireTok) := do
  let (idx, t1) ← readU8 toks
  let (a, t2) ← readI16 t1
  let (b, t3) ← readI16 t2
  let (c, t4) ← readI16 t3
  pure (decodeSmallestThree ⟨idx, a, b, c⟩, t4)

/-- The per-body field reads of `decodeRoomState`: mask byte, then each
masked field, with zero velocities and the identity orientation as the
defaults for absent fields. -/
noncomputable def decodeBodyFields (id : String) (toks : List WireTok) :
    Option (BodyState ℝ × List WireTok) := do
  let (fieldMask, t2) ← readU8 toks
  let (pos, t3) ←
    (if fieldMask &&& FIELD_POSITION ≠ 0 then readVec3F32 t2
     else pure (⟨0, 0, 0⟩, t2))
  let (rot, t4) ←
    (if fieldMask &&& FIELD_ROTATION ≠ 0 then readQuatS3 t3
     else pure (⟨0, 0, 0, 1⟩, t3))
  let (lv, t5) ←
    (if fieldMask &&& FIELD_LIN_VEL ≠ 0 then readVec3F32 t4
     else pure (⟨0, 0, 0⟩, t4))
  let (av, t6) ←
    (if fieldMask &&& FIELD_ANG_VEL ≠ 0 then readVec3F32 t5
     else pure (⟨0, 0, 0⟩, t5))
  pure (⟨id, pos, rot, lv, av, some fieldMask⟩, t6)

/-- The per-body id read: under numeric ids, a u16 index resolved through
the optional map with the `__unknown_<index>` fallback; under string ids,
the length byte and the id bytes. (In the byte format a wrapped length byte
would misparse; the token model makes that case a decode failure, checked by
comparing the id's byte size against the length byte.) -/
noncomputable def decodeBodyToks (useNumeric : Bool)
    (indexToId : Option (List (ℕ × String))) (toks : List WireTok) :
    Option (BodyState ℝ × List WireTok) :=
  if useNumeric then do
    let (idx, t1) ← readU16 toks
    let id := (Option.bind indexToId (fun mm => alGet mm idx)).getD
      ("__unknown_" ++ toString idx)
    decodeBodyFields id t1
  else do
    let (len, t1) ← readU8 toks
    let (s, t2) ← readUtf8 t1
    if s.utf8ByteSize = len then decodeBodyFields s t2 else none

/-- The body-count loop of `decodeRoomState`. -/
noncomputable def decodeBodyList (useNumeric : Bool)
    (indexToId : Option (List (ℕ × String))) :
    ℕ → List WireTok → Option (List (BodyState ℝ) × List WireTok)
  | 0, toks => some ([], toks)
  | n + 1, toks => do
      let (b, t1) ← decodeBodyToks useNumeric indexToId toks
      let (bs, t2) ← decodeBodyList useNumeric indexToId n t1
      pure (b :: bs, t2)

/-- `decodeRoomState(data, indexToId?)`: skip the opcode byte (unchecked, as
in the source), read the header, then `bodyCount` bodies. -/
noncomputable def decodeRoomState (toks : List WireTok)
    (indexToId : Option (List (ℕ × String))) : Option RoomStateMessage := do
  let t0 ← (match toks with
    | _ :: rest => some rest
    | [] => none)
  let (tick, t1) ← readU32 t0
  let (timestamp, t2) ← readF64 t1
  let (flags, t3) ← readU8 t2
  let (bodyCount, t4) ← readU16 t3
  let useNumeric := decide (flags &&& FLAG_NUMERIC_IDS ≠ 0)
  let (bodies, _) ← decodeBodyList useNumeric indexToId bodyCount t4
  pure ⟨tick, timestamp, decide (flags &&& FLAG_IS_DELTA ≠ 0), bodies⟩

theorem and_mod256 (mask k : ℕ) (hk : k < 256) : (mask % 256) &&& k = mask &&& k := by
  apply Nat.eq_of_testBit_eq
  intro i
  rw [Nat.testBit_and, Nat.testBit_and]
  by_cases hi : i < 8
  · rw [show (256 : ℕ) = 2 ^ 8 from rfl, Nat.testBit_mod_two_pow]
    simp [hi]
  · have h8 : (2 : ℕ) ^ 8 ≤ 2 ^ i := Nat.pow_le_pow_right (by norm_num) (not_lt.mp hi)
    have hk2 : k < 2 ^ i := lt_of_lt_of_le (by simpa using hk) h8
    have hkb : k.testBit i = false := Nat.testBit_eq_false_of_lt hk2
    simp [hkb]


@[simp] theorem mod256_mod2 (m : ℕ) : m % 256 % 2 = m % 2 :=
  Nat.mod_mod_of_dvd m (by norm_num)

@[simp] theorem and2_mod256 (m : ℕ) : (m % 256) &&& 2 = m &&& 2 :=
  and_mod256 m 2 (by norm_num)
@[simp] theorem and4_mod256 (m : ℕ) : (m % 256) &&& 4 = m &&& 4 :=
  and_mod256 m 4 (by norm_num)
@[simp] theorem and8_mod256 (m : ℕ) : (m % 256) &&& 8 = m &&& 8 :=
  and_mod256 m 8 (by norm_num)

@[simp] theorem readU8_cons (v : ℕ) (rest : List WireTok) :
    readU8 (WireTok.u8 v :: rest) = some (v, rest) := rfl
@[simp] theorem readU16_cons (v : ℕ) (rest : List WireTok) :
    readU16 (WireTok.u16 v :: rest) = some (v, rest) := rfl
@[simp] theorem readU32_cons (v : ℕ) (rest : List WireTok) :
    readU32 (WireTok.u32 v :: rest) = some (v, rest) := rfl
@[simp] theorem readI16_cons (v : ℤ) (rest : List WireTok) :
    readI16 (WireTok.i16 v :: rest) = some (v, rest) := rfl
@[simp] theorem readF32_cons (v : ℝ) (rest : List WireTok) :
    readF32 (WireTok.f32 v :: rest) = some (v, rest) := rfl
@[simp] theorem readF64_cons (v : ℝ) (rest : List WireTok) :
    readF64 (WireTok.f64 v :: rest) = some (v, rest) := rfl
@[simp] theorem readUtf8_cons (s : String) (rest : List WireTok) :
    readUtf8 (WireTok.utf8 s :: rest) = some (s, rest) := rfl

@[simp] theorem readVec3F32_f32Toks (v : Vec3 ℝ) (rest : List WireTok) :
    readVec3F32 (f32Toks v ++ rest) =
      some (⟨f32round v.x, f32round v.y, f32round v.z⟩, rest) := rfl

@[simp] theorem readQuatS3_cons (n : ℕ) (a b c : ℤ) (rest : List WireTok) :
    readQuatS3 (WireTok.u8 n :: WireTok.i16 a :: WireTok.i16 b ::
      WireTok.i16 c :: rest) = some (decodeSmallestThree ⟨n, a, b, c⟩, rest) := rfl

/-- The body `decodeBodyFields` reconstructs from `encodeFieldToks b`. -/
noncomputable def decodedBody (id : String) (b : BodyState ℝ) : BodyState ℝ :=
  let mask := b.fieldMask.getD FIELD_ALL
  { id := id
    position :=
      if mask &&& FIELD_POSITION ≠ 0 then
        ⟨f32round b.position.x, f32round b.position.y, f32round b.position.z⟩
      else ⟨0, 0, 0⟩
    rotation :=
      if mask &&& FIELD_ROTATION ≠ 0 then
        decodeSmallestThree ⟨(encodeSmallestThree b.rotation).idx % 256,
          (encodeSmallestThree b.rotation).a, (encodeSmallestThree b.rotation).b,
          (encodeSmallestThree b.rotation).c⟩
      else ⟨0, 0, 0, 1⟩
    linVel :=
      if mask &&& FIELD_LIN_VEL ≠ 0 then
        ⟨f32round b.linVel.x, f32round b.linVel.y, f32round b.linVel.z⟩
      else ⟨0, 0, 0⟩
    angVel :=
      if mask &&& FIELD_ANG_VEL ≠ 0 then
        ⟨f32round b.angVel.x, f32round b.angVel.y, f32round b.angVel.z⟩
      else ⟨0, 0, 0⟩
    fieldMask := some (mask % 256) }

theorem decodeBodyFields_encode (id : String) (b : BodyState ℝ)
    (rest : List WireTok) :
    decodeBodyFields id (encodeFieldToks b ++ rest) =
      some (decodedBody id b, rest) := by
  unfold decodeBodyFields encodeFieldToks decodedBody
  by_cases h1 : (b.fieldMask.getD FIELD_ALL) % 2 = 1 <;>
  by_cases h2 : (b.fieldMask.getD FIELD_ALL) &&& 2 = 0 <;>
  by_cases h3 : (b.fieldMask.getD FIELD_ALL) &&& 4 = 0 <;>
  by_cases h4 : (b.fieldMask.getD FIELD_ALL) &&& 8 = 0 <;>
    simp [h1, h2, h3, h4, FIELD_POSITION, FIELD_ROTATION, FIELD_LIN_VEL,
      FIELD_ANG_VEL, List.append_assoc]

theorem decodeBodyToks_encode_str (m' : Option (List (ℕ × String)))
    (b : BodyState ℝ) (rest : List WireTok)
    (hlen : b.id.utf8ByteSize < 256) :
    decodeBodyToks false m' (encodeBodyToks false [] b ++ rest) =
      some (decodedBody b.id b, rest) := by
  unfold decodeBodyToks encodeBodyToks encodeIdToks
  simp [Nat.mod_eq_of_lt hlen, decodeBodyFields_encode]

/-- The id a numeric-mode body decodes to: the encoded u16 index resolved
through the decoder's map, with the `__unknown_<index>` placeholder. -/
def numericId (m : List (String × ℕ)) (m' : Option (List (ℕ × String)))
    (b : BodyState ℝ) : String :=
  let idx := ((alGet m b.id).getD 0) % 65536
  (Option.bind m' (fun mm => alGet mm idx)).getD ("__unknown_" ++ toString idx)

theorem decodeBodyToks_encode_num (m : List (String × ℕ))
    (m' : Option (List (ℕ × String))) (b : BodyState ℝ) (rest : List WireTok) :
    decodeBodyToks true m' (encodeBodyToks true m b ++ rest) =
      some (decodedBody (numericId m m' b) b, rest) := by
  unfold decodeBodyToks encodeBodyToks encodeIdToks numericId
  simp [decodeBodyFields_encode]

theorem decodeBodyList_encode_str (m' : Option (List (ℕ × String)))
    (bodies : List (BodyState ℝ)) (rest : List WireTok)
    (hlen : ∀ b ∈ bodies, b.id.utf8ByteSize < 256) :
    decodeBodyList false m' bodies.length
        ((bodies.map (encodeBodyToks false [])).flatten ++ rest) =
      some (bodies.map (fun b => decodedBody b.id b), rest) := by
  induction bodies with
  | nil => rfl
  | cons b bs ih =>
      rw [List.map_cons, List.flatten_cons, List.append_assoc, List.length_cons]
      unfold decodeBodyList
      have hb := fun rest => decodeBodyToks_encode_str m' b rest (hlen b (by simp))
      simp [hb, ih (fun x hx => hlen x (by simp [hx]))]

theorem decodeBodyList_encode_num (m : List (String × ℕ))
    (m' : Option (List (ℕ × String))) (bodies : List (BodyState ℝ))
    (rest : List WireTok) :
    decodeBodyList true m' bodies.length
        ((bodies.map (encodeBodyToks true m)).flatten ++ rest) =
      some (bodies.map (fun b => decodedBody (numericId m m' b) b), rest) := by
  induction bodies with
  | nil => rfl
  | cons b bs ih =>
      rw [List.map_cons, List.flatten_cons, List.append_assoc, List.length_cons]
      unfold decodeBodyList
      simp [decodeBodyToks_encode_num m m' b, ih]

theorem decodeRoomState_encode_str (msg : RoomStateMessage)
    (m' : Option (List (ℕ × String)))
    (hlen : msg.bodies.length < 65536)
    (hids : ∀ b ∈ msg.bodies, b.id.utf8ByteSize < 256) :
    decodeRoomState (encodeRoomState msg none) m' =
      some ⟨msg.tick % 4294967296, msg.timestamp, msg.isDelta,
        msg.bodies.map (fun b => decodedBody b.id b)⟩ := by
  unfold decodeRoomState encodeRoomState
  have hbl := decodeBodyList_encode_str m' msg.bodies [] hids
  rw [List.append_nil] at hbl
  cases hd : msg.isDelta <;>
    simp [Nat.mod_eq_of_lt hlen, hbl, FLAG_IS_DELTA, FLAG_NUMERIC_IDS]

theorem decodeRoomState_encode_num (msg : RoomStateMessage)
    (m : List (String × ℕ)) (m' : Option (List (ℕ × String)))
    (hm : m ≠ [])
    (hlen : msg.bodies.length < 65536) :
    decodeRoomState (encodeRoomState msg (some m)) m' =
      some ⟨msg.tick % 4294967296, msg.timestamp, msg.isDelta,
        msg.bodies.map (fun b => decodedBody (numericId m m' b) b)⟩ := by
  cases m with
  | nil => cases hm rfl
  | cons p m2 =>
      unfold decodeRoomState encodeRoomState
      have hbl := decodeBodyList_encode_num (p :: m2) m' msg.bodies []
      rw [List.append_nil] at hbl
      cases hd : msg.isDelta <;>
        simp [Nat.mod_eq_of_lt hlen, hbl, FLAG_IS_DELTA, FLAG_NUMERIC_IDS]

/-- Claim C2: a ROOM_STATE body whose fieldMask is exactly `FIELD_POSITION`
round-trips through `encodeRoomState`/`decodeRoomState` with
`fieldMask = FIELD_POSITION`, the position at f32 precision, velocities
exactly zero and the identity rotation. -/
theorem roundtrip_position_only (msg : RoomStateMessage) (j : ℕ)
    (b : BodyState ℝ)
    (hlen : msg.bodies.length < 65536)
    (hids : ∀ x ∈ msg.bodies, x.id.utf8ByteSize < 256)
    (hj : msg.bodies.get? j = some b)
    (hmask : b.fieldMask = some FIELD_POSITION) :
    ∃ out, decodeRoomState (encodeRoomState msg none) none = some out ∧
      out.bodies.get? j = some
        ⟨b.id, ⟨f32round b.position.x, f32round b.position.y,
          f32round b.position.z⟩, ⟨0, 0, 0, 1⟩, ⟨0, 0, 0⟩, ⟨0, 0, 0⟩,
          some FIELD_POSITION⟩ := by
  refine ⟨_, decodeRoomState_encode_str msg none hlen hids, ?_⟩
  rw [List.get?_map, hj]
  simp only [Option.map_some']
  unfold decodedBody
  rw [hmask]
  norm_num [FIELD_POSITION, FIELD_ROTATION, FIELD_LIN_VEL, FIELD_ANG_VEL]

/-- Example wire body with only the position field masked. -/
noncomputable def exMsgBody : BodyState ℝ :=
  { id := "b", position := ⟨5, 6, 7⟩, rotation := ⟨0, 0, 0, 1⟩,
    linVel := ⟨0, 0, 0⟩, angVel := ⟨0, 0, 0⟩, fieldMask := some FIELD_POSITION }

/-- Example one-body ROOM_STATE message. -/
noncomputable def exMsg : RoomStateMessage := ⟨10, 0, true, [exMsgBody]⟩

/-- Concrete instantiation of `roundtrip_position_only`. -/
theorem roundtrip_position_only_witness :
    exMsg.bodies.length < 65536 ∧
    exMsg.bodies.get? 0 = some exMsgBody ∧
    exMsgBody.fieldMask = some FIELD_POSITION ∧
    (∃ out, decodeRoomState (encodeRoomState exMsg none) none = some out ∧
      out.bodies.get? 0 = some
        ⟨exMsgBody.id, ⟨f32round exMsgBody.position.x,
          f32round exMsgBody.position.y, f32round exMsgBody.position.z⟩,
          ⟨0, 0, 0, 1⟩, ⟨0, 0, 0⟩, ⟨0, 0, 0⟩, some FIELD_POSITION⟩) :=
  ⟨by norm_num [exMsg], rfl, rfl,
    roundtrip_position_only exMsg 0 exMsgBody (by norm_num [exMsg])
      (fun x hx => by
        rcases List.mem_singleton.mp hx with rfl
        decide) rfl rfl⟩

/-- Claim C10: decoding a numeric-id ROOM_STATE frame never fails on a u16
body index missing from the supplied index-to-id map (here: no map at all):
the body decodes with all its masked fields under the placeholder id
`__unknown_<index>`. -/
theorem decode_unknown_numeric_index (msg : RoomStateMessage)
    (m : List (String × ℕ)) (m' : Option (List (ℕ × String))) (j : ℕ)
    (b : BodyState ℝ) (idx : ℕ)
    (hm : m ≠ [])
    (hlen : msg.bodies.length < 65536)
    (hj : msg.bodies.get? j = some b)
    (hbidx : alGet m b.id = some idx)
    (hidx : idx < 65536)
    (hmiss : Option.bind m' (fun mm => alGet mm idx) = none) :
    ∃ out, decodeRoomState (encodeRoomState msg (some m)) m' = some out ∧
      out.bodies.get? j = some (decodedBody ("__unknown_" ++ toString idx) b) := by
  refine ⟨_, decodeRoomState_encode_num msg m m' hm hlen, ?_⟩
  rw [List.get?_map, hj]
  simp only [Option.map_some']
  unfold numericId
  rw [hbidx]
  simp [Nat.mod_eq_of_lt hidx, hmiss]

/-- Concrete instantiation of `decode_unknown_numeric_index`: the decoder
is handed no map, so body index 7 decodes under id `__unknown_7`. -/
theorem decode_unknown_numeric_index_witness :
    ([("b", 7)] : List (String × ℕ)) ≠ [] ∧
    exMsg.bodies.length < 65536 ∧
    exMsg.bodies.get? 0 = some exMsgBody ∧
    alGet [("b", 7)] exMsgBody.id = some 7 ∧
    (7 : ℕ) < 65536 ∧
    Option.bind (none : Option (List (ℕ × String))) (fun mm => alGet mm 7) = none ∧
    (∃ out, decodeRoomState (encodeRoomState exMsg (some [("b", 7)])) none = some out ∧
      out.bodies.get? 0 = some (decodedBody ("__unknown_" ++ toString 7) exMsgBody)) :=
  ⟨by decide, by norm_num [exMsg], rfl, rfl, by decide, rfl,
    decode_unknown_numeric_index exMsg [("b", 7)] none 0 exMsgBody 7
      (by decide) (by norm_num [exMsg]) rfl rfl (by decide) rfl⟩

theorem jsRound_err (x : ℝ) : |((jsRound x : ℤ) : ℝ) - x| ≤ 1 / 2 := by
  unfold jsRound
  have h1 := Int.floor_le (x + 1 / 2)
  have h2 := Int.lt_floor_add_one (x + 1 / 2)
  rw [abs_le]
  constructor <;> linarith

theorem wrapI16_eq (n : ℤ) (h1 : -32768 ≤ n) (h2 : n ≤ 32767) :
    wrapI16 n = n := by
  unfold wrapI16
  rw [Int.emod_eq_of_lt (by linarith) (by linarith)]
  ring

theorem jsSign_mul (x : ℝ) : (if x < 0 then (-1 : ℝ) else 1) * x = |x| := by
  by_cases h : x < 0
  · simp [h, abs_of_neg h]
  · simp [h, abs_of_nonneg (not_lt.mp h)]

theorem sq_sign (x : ℝ) : (if x < 0 then (-1 : ℝ) else 1) ^ 2 = 1 := by
  by_cases h : x < 0 <;> simp [h]

theorem quantizeComponent_spec (x : ℝ) (hx : x ^ 2 ≤ 1 / 2) :
    |((quantizeComponent x : ℤ) : ℝ) / QUAT_SCALE - x| ≤ 11 / 1000000 ∧
      |((quantizeComponent x : ℤ) : ℝ) / QUAT_SCALE| ≤ 71 / 100 := by
  have hB2 : (1 / 2 : ℝ) ≤ QUAT_CLAMP ^ 2 := by norm_num [QUAT_CLAMP]
  have hBpos : (0 : ℝ) < QUAT_CLAMP := by norm_num [QUAT_CLAMP]
  have hB71 : QUAT_CLAMP ≤ 708 / 1000 := by norm_num [QUAT_CLAMP]
  have hxle : |x| ≤ QUAT_CLAMP := by
    nlinarith [sq_abs x, abs_nonneg x]
  have hclamp : max (-QUAT_CLAMP) (min QUAT_CLAMP x) = x := by
    rw [min_eq_right (abs_le.mp hxle).2, max_eq_right (abs_le.mp hxle).1]
  have hS1 : (46000 : ℝ) ≤ QUAT_SCALE := by
    rw [show QUAT_SCALE = 32767 / QUAT_CLAMP from rfl, le_div_iff hBpos]
    norm_num [QUAT_CLAMP]
  have hSpos : (0 : ℝ) < QUAT_SCALE := lt_of_lt_of_le (by norm_num) hS1
  have hS2 : QUAT_CLAMP * QUAT_SCALE = 32767 := by
    rw [show QUAT_SCALE = 32767 / QUAT_CLAMP from rfl]
    field_simp
  have hxs : |x * QUAT_SCALE| ≤ 32767 := by
    rw [abs_mul, abs_of_pos hSpos]
    calc |x| * QUAT_SCALE ≤ QUAT_CLAMP * QUAT_SCALE :=
          mul_le_mul_of_nonneg_right hxle (le_of_lt hSpos)
      _ = 32767 := hS2
  have hjr := jsRound_err (x * QUAT_SCALE)
  have hnle : jsRound (x * QUAT_SCALE) ≤ 32767 := by
    by_contra hcon
    push_neg at hcon
    have hc2 : (32768 : ℝ) ≤ ((jsRound (x * QUAT_SCALE) : ℤ) : ℝ) := by
      exact_mod_cast hcon
    have ha := (abs_le.mp hjr).2
    have hb := (abs_le.mp hxs).2
    linarith
  have hnge : -32768 ≤ jsRound (x * QUAT_SCALE) := by
    by_contra hcon
    push_neg at hcon
    have hc1 : jsRound (x * QUAT_SCALE) ≤ -32769 := by omega
    have hc2 : ((jsRound (x * QUAT_SCALE) : ℤ) : ℝ) ≤ -32769 := by
      exact_mod_cast hc1
    have ha := (abs_le.mp hjr).1
    have hb := (abs_le.mp hxs).1
    linarith
  have hwrap : quantizeComponent x = jsRound (x * QUAT_SCALE) := by
    unfold quantizeComponent
    rw [hclamp]
    exact wrapI16_eq _ hnge hnle
  rw [hwrap]
  have herr : |((jsRound (x * QUAT_SCALE) : ℤ) : ℝ) / QUAT_SCALE - x| ≤
      11 / 1000000 := by
    have heq : ((jsRound (x * QUAT_SCALE) : ℤ) : ℝ) / QUAT_SCALE - x =
        (((jsRound (x * QUAT_SCALE) : ℤ) : ℝ) - x * QUAT_SCALE) / QUAT_SCALE := by
      field_simp
      ring
    rw [heq, abs_div, abs_of_pos hSpos, div_le_iff hSpos]
    calc |((jsRound (x * QUAT_SCALE) : ℤ) : ℝ) - x * QUAT_SCALE| ≤ 1 / 2 := hjr
      _ ≤ 11 / 1000000 * QUAT_SCALE := by nlinarith
  refine ⟨herr, ?_⟩
  calc |((jsRound (x * QUAT_SCALE) : ℤ) : ℝ) / QUAT_SCALE|
      = |(((jsRound (x * QUAT_SCALE) : ℤ) : ℝ) / QUAT_SCALE - x) + x| := by
        ring_nf
    _ ≤ |((jsRound (x * QUAT_SCALE) : ℤ) : ℝ) / QUAT_SCALE - x| + |x| :=
        abs_add _ _
    _ ≤ 11 / 1000000 + 708 / 1000 := add_le_add herr (le_trans hxle hB71)
    _ ≤ 71 / 100 := by norm_num

theorem sqrt_reconstruct (o1 o2 o3 p1 p2 p3 v : ℝ)
    (hv : 1 / 2 ≤ v)
    (hsum : o1 ^ 2 + o2 ^ 2 + o3 ^ 2 + v ^ 2 = 1)
    (h1 : |p1 - o1| ≤ 11 / 1000000) (h2 : |p2 - o2| ≤ 11 / 1000000)
    (h3 : |p3 - o3| ≤ 11 / 1000000)
    (b1 : |p1| ≤ 71 / 100) (b2 : |p2| ≤ 71 / 100) (b3 : |p3| ≤ 71 / 100)
    (c1 : |o1| ≤ 71 / 100) (c2 : |o2| ≤ 71 / 100) (c3 : |o3| ≤ 71 / 100) :
    |Real.sqrt (max 0 (1 - (p1 * p1 + p2 * p2 + p3 * p3))) - v| ≤ 1 / 1000 := by
  have e1 : |p1 * p1 - o1 ^ 2| ≤ 11 / 1000000 * (142 / 100) := by
    have hr : p1 * p1 - o1 ^ 2 = (p1 - o1) * (p1 + o1) := by ring
    rw [hr, abs_mul]
    apply mul_le_mul h1 ?_ (abs_nonneg _) (by norm_num)
    calc |p1 + o1| ≤ |p1| + |o1| := abs_add _ _
      _ ≤ 142 / 100 := by linarith
  have e2 : |p2 * p2 - o2 ^ 2| ≤ 11 / 1000000 * (142 / 100) := by
    have hr : p2 * p2 - o2 ^ 2 = (p2 - o2) * (p2 + o2) := by ring
    rw [hr, abs_mul]
    apply mul_le_mul h2 ?_ (abs_nonneg _) (by norm_num)
    calc |p2 + o2| ≤ |p2| + |o2| := abs_add _ _
      _ ≤ 142 / 100 := by linarith
  have e3 : |p3 * p3 - o3 ^ 2| ≤ 11 / 1000000 * (142 / 100) := by
    have hr : p3 * p3 - o3 ^ 2 = (p3 - o3) * (p3 + o3) := by ring
    rw [hr, abs_mul]
    apply mul_le_mul h3 ?_ (abs_nonneg _) (by norm_num)
    calc |p3 + o3| ≤ |p3| + |o3| := abs_add _ _
      _ ≤ 142 / 100 := by linarith
  have hd : |(1 - (p1 * p1 + p2 * p2 + p3 * p3)) - v ^ 2| ≤ 5 / 100000 := by
    have hr : (1 - (p1 * p1 + p2 * p2 + p3 * p3)) - v ^ 2 =
        -((p1 * p1 - o1 ^ 2) + (p2 * p2 - o2 ^ 2) + (p3 * p3 - o3 ^ 2)) := by
      linear_combination -hsum
    rw [hr, abs_neg]
    calc |(p1 * p1 - o1 ^ 2) + (p2 * p2 - o2 ^ 2) + (p3 * p3 - o3 ^ 2)|
        ≤ |(p1 * p1 - o1 ^ 2) + (p2 * p2 - o2 ^ 2)| + |p3 * p3 - o3 ^ 2| :=
          abs_add _ _
      _ ≤ |p1 * p1 - o1 ^ 2| + |p2 * p2 - o2 ^ 2| + |p3 * p3 - o3 ^ 2| := by
          have := abs_add (p1 * p1 - o1 ^ 2) (p2 * p2 - o2 ^ 2)
          linarith
      _ ≤ 5 / 100000 := by linarith
  have hA : 0 ≤ 1 - (p1 * p1 + p2 * p2 + p3 * p3) := by
    have := abs_le.mp hd
    nlinarith
  rw [max_eq_right hA]
  have hub : Real.sqrt (1 - (p1 * p1 + p2 * p2 + p3 * p3)) ≤ v + 1 / 1000 := by
    have hle : 1 - (p1 * p1 + p2 * p2 + p3 * p3) ≤ (v + 1 / 1000) ^ 2 := by
      have := abs_le.mp hd
      nlinarith
    calc Real.sqrt (1 - (p1 * p1 + p2 * p2 + p3 * p3))
        ≤ Real.sqrt ((v + 1 / 1000) ^ 2) := Real.sqrt_le_sqrt hle
      _ = v + 1 / 1000 := Real.sqrt_sq (by linarith)
  have hlb : v - 1 / 1000 ≤ Real.sqrt (1 - (p1 * p1 + p2 * p2 + p3 * p3)) := by
    have hle : (v - 1 / 1000) ^ 2 ≤ 1 - (p1 * p1 + p2 * p2 + p3 * p3) := by
      have := abs_le.mp hd
      nlinarith
    calc v - 1 / 1000 = Real.sqrt ((v - 1 / 1000) ^ 2) :=
          (Real.sqrt_sq (by linarith)).symm
      _ ≤ Real.sqrt (1 - (p1 * p1 + p2 * p2 + p3 * p3)) := Real.sqrt_le_sqrt hle
  rw [abs_le]
  constructor <;> linarith

theorem maxAbsIdx_spec (q : Quat ℝ) :
    maxAbsIdx q < 4 ∧ ∀ i, i < 4 → |q.comp i| ≤ |q.comp (maxAbsIdx q)| := by
  unfold maxAbsIdx
  dsimp only
  split_ifs with h1 h2 h3 h4 h5 h6 h7 <;>
    (refine ⟨by norm_num, ?_⟩
     intro i hi
     interval_cases i <;> simp only [Quat.comp] <;> linarith [abs_nonneg q.x])

theorem abs_le_71_of_sq_le_half (z : ℝ) (h : z ^ 2 ≤ 1 / 2) : |z| ≤ 71 / 100 := by
  nlinarith [sq_abs z, abs_nonneg z]

theorem half_le_abs_of_quarter_le_sq (z : ℝ) (h : 1 / 4 ≤ z ^ 2) :
    1 / 2 ≤ |z| := by
  nlinarith [sq_abs z, abs_nonneg z]

theorem smallestThree_core (x0 o1 o2 o3 : ℝ)
    (hm1 : |o1| ≤ |x0|) (hm2 : |o2| ≤ |x0|) (hm3 : |o3| ≤ |x0|)
    (hsum : x0 ^ 2 + o1 ^ 2 + o2 ^ 2 + o3 ^ 2 = 1) :
    let s : ℝ := if x0 < 0 then -1 else 1
    let p1 := ((quantizeComponent (o1 * s) : ℤ) : ℝ) / QUAT_SCALE
    let p2 := ((quantizeComponent (o2 * s) : ℤ) : ℝ) / QUAT_SCALE
    let p3 := ((quantizeComponent (o3 * s) : ℤ) : ℝ) / QUAT_SCALE
    (|p1 - s * o1| ≤ 1 / 1000 ∧ |p2 - s * o2| ≤ 1 / 1000 ∧
      |p3 - s * o3| ≤ 1 / 1000) ∧
    |Real.sqrt (max 0 (1 - (p1 * p1 + p2 * p2 + p3 * p3))) - s * x0| ≤
      1 / 1000 := by
  intro s p1 p2 p3
  have hs2 : s ^ 2 = 1 := sq_sign x0
  have hsq1 : o1 ^ 2 ≤ x0 ^ 2 := by nlinarith [sq_abs o1, sq_abs x0, abs_nonneg o1]
  have hsq2 : o2 ^ 2 ≤ x0 ^ 2 := by nlinarith [sq_abs o2, sq_abs x0, abs_nonneg o2]
  have hsq3 : o3 ^ 2 ≤ x0 ^ 2 := by nlinarith [sq_abs o3, sq_abs x0, abs_nonneg o3]
  have hos1 : (o1 * s) ^ 2 = o1 ^ 2 := by rw [mul_pow, hs2, mul_one]
  have hos2 : (o2 * s) ^ 2 = o2 ^ 2 := by rw [mul_pow, hs2, mul_one]
  have hos3 : (o3 * s) ^ 2 = o3 ^ 2 := by rw [mul_pow, hs2, mul_one]
  have hhalf1 : (o1 * s) ^ 2 ≤ 1 / 2 := by
    rw [hos1]
    linarith [sq_nonneg o2, sq_nonneg o3]
  have hhalf2 : (o2 * s) ^ 2 ≤ 1 / 2 := by
    rw [hos2]
    linarith [sq_nonneg o1, sq_nonneg o3]
  have hhalf3 : (o3 * s) ^ 2 ≤ 1 / 2 := by
    rw [hos3]
    linarith [sq_nonneg o1, sq_nonneg o2]
  have hq1 := quantizeComponent_spec (o1 * s) hhalf1
  have hq2 := quantizeComponent_spec (o2 * s) hhalf2
  have hq3 := quantizeComponent_spec (o3 * s) hhalf3
  have ha1 : |p1 - s * o1| ≤ 11 / 1000000 := by rw [mul_comm s o1]; exact hq1.1
  have ha2 : |p2 - s * o2| ≤ 11 / 1000000 := by rw [mul_comm s o2]; exact hq2.1
  have ha3 : |p3 - s * o3| ≤ 11 / 1000000 := by rw [mul_comm s o3]; exact hq3.1
  have hx0q : 1 / 4 ≤ x0 ^ 2 := by linarith
  have hvabs : s * x0 = |x0| := jsSign_mul x0
  have hv : 1 / 2 ≤ s * x0 := by
    rw [hvabs]
    exact half_le_abs_of_quarter_le_sq x0 hx0q
  have habs1 : |o1 * s| ≤ 71 / 100 := abs_le_71_of_sq_le_half _ hhalf1
  have habs2 : |o2 * s| ≤ 71 / 100 := abs_le_71_of_sq_le_half _ hhalf2
  have habs3 : |o3 * s| ≤ 71 / 100 := abs_le_71_of_sq_le_half _ hhalf3
  have hsum2 : (o1 * s) ^ 2 + (o2 * s) ^ 2 + (o3 * s) ^ 2 + (s * x0) ^ 2 = 1 := by
    have hvs : (s * x0) ^ 2 = x0 ^ 2 := by rw [mul_pow, hs2, one_mul]
    rw [hos1, hos2, hos3, hvs]
    linarith
  have hb := sqrt_reconstruct (o1 * s) (o2 * s) (o3 * s) p1 p2 p3 (s * x0) hv
    hsum2 (by rw [← mul_comm s o1]; exact ha1) (by rw [← mul_comm s o2]; exact ha2)
    (by rw [← mul_comm s o3]; exact ha3) hq1.2 hq2.2 hq3.2 habs1 habs2 habs3
  exact ⟨⟨le_trans ha1 (by norm_num), le_trans ha2 (by norm_num),
    le_trans ha3 (by norm_num)⟩, hb⟩

theorem smallestThree_roundtrip_case0 (q : Quat ℝ)
    (hq : q.x ^ 2 + q.y ^ 2 + q.z ^ 2 + q.w ^ 2 = 1)
    (hk : maxAbsIdx q = 0)
    (habs : ∀ i, i < 4 → |q.comp i| ≤ |q.comp (maxAbsIdx q)|) :
    (encodeSmallestThree q).idx = maxAbsIdx q ∧
    (decodeSmallestThree (encodeSmallestThree q)).comp (maxAbsIdx q) =
      Real.sqrt (max 0 (1 -
        (((encodeSmallestThree q).a : ℝ) / QUAT_SCALE *
          (((encodeSmallestThree q).a : ℝ) / QUAT_SCALE) +
         ((encodeSmallestThree q).b : ℝ) / QUAT_SCALE *
          (((encodeSmallestThree q).b : ℝ) / QUAT_SCALE) +
         ((encodeSmallestThree q).c : ℝ) / QUAT_SCALE *
          (((encodeSmallestThree q).c : ℝ) / QUAT_SCALE)))) ∧
    ∀ j, j < 4 →
      |(decodeSmallestThree (encodeSmallestThree q)).comp j -
        (if q.comp (maxAbsIdx q) < 0 then (-1 : ℝ) else 1) * q.comp j| ≤
        1 / 1000 := by
  have h1 := habs 1 (by norm_num)
  have h2 := habs 2 (by norm_num)
  have h3 := habs 3 (by norm_num)
  rw [hk] at h1 h2 h3
  simp only [Quat.comp] at h1 h2 h3
  obtain ⟨⟨hc1, hc2, hc3⟩, hcB⟩ := smallestThree_core q.x q.y q.z q.w h1 h2 h3 hq
  rw [hk]
  simp only [encodeSmallestThree, hk, Quat.comp]
  simp only [decodeSmallestThree]
  refine ⟨trivial, trivial, ?_⟩
  intro j hj
  interval_cases j <;> simp only [Quat.comp]
  · exact hcB
  · exact hc1
  · exact hc2
  · exact hc3

theorem smallestThree_roundtrip_case1 (q : Quat ℝ)
    (hq : q.x ^ 2 + q.y ^ 2 + q.z ^ 2 + q.w ^ 2 = 1)
    (hk : maxAbsIdx q = 1)
    (habs : ∀ i, i < 4 → |q.comp i| ≤ |q.comp (maxAbsIdx q)|) :
    (encodeSmallestThree q).idx = maxAbsIdx q ∧
    (decodeSmallestThree (encodeSmallestThree q)).comp (maxAbsIdx q) =
      Real.sqrt (max 0 (1 -
        (((encodeSmallestThree q).a : ℝ) / QUAT_SCALE *
          (((encodeSmallestThree q).a : ℝ) / QUAT_SCALE) +
         ((encodeSmallestThree q).b : ℝ) / QUAT_SCALE *
          (((encodeSmallestThree q).b : ℝ) / QUAT_SCALE) +
         ((encodeSmallestThree q).c : ℝ) / QUAT_SCALE *
          (((encodeSmallestThree q).c : ℝ) / QUAT_SCALE)))) ∧
    ∀ j, j < 4 →
      |(decodeSmallestThree (encodeSmallestThree q)).comp j -
        (if q.comp (maxAbsIdx q) < 0 then (-1 : ℝ) else 1) * q.comp j| ≤
        1 / 1000 := by
  have h1 := habs 0 (by norm_num)
  have h2 := habs 2 (by norm_num)
  have h3 := habs 3 (by norm_num)
  rw [hk] at h1 h2 h3
  simp only [Quat.comp] at h1 h2 h3
  have hsum : q.y ^ 2 + q.x ^ 2 + q.z ^ 2 + q.w ^ 2 = 1 := by linarith
  obtain ⟨⟨hc1, hc2, hc3⟩, hcB⟩ := smallestThree_core q.y q.x q.z q.w h1 h2 h3 hsum
  rw [hk]
  simp only [encodeSmallestThree, hk, Quat.comp]
  simp only [decodeSmallestThree]
  refine ⟨trivial, trivial, ?_⟩
  intro j hj
  interval_cases j <;> simp only [Quat.comp]
  · exact hc1
  · exact hcB
  · exact hc2
  · exact hc3

theorem smallestThree_roundtrip_case2 (q : Quat ℝ)
    (hq : q.x ^ 2 + q.y ^ 2 + q.z ^ 2 + q.w ^ 2 = 1)
    (hk : maxAbsIdx q = 2)
    (habs : ∀ i, i < 4 → |q.comp i| ≤ |q.comp (maxAbsIdx q)|) :
    (encodeSmallestThree q).idx = maxAbsIdx q ∧
    (decodeSmallestThree (encodeSmallestThree q)).comp (maxAbsIdx q) =
      Real.sqrt (max 0 (1 -
        (((encodeSmallestThree q).a : ℝ) / QUAT_SCALE *
          (((encodeSmallestThree q).a : ℝ) / QUAT_SCALE) +
         ((encodeSmallestThree q).b : ℝ) / QUAT_SCALE *
          (((encodeSmallestThree q).b : ℝ) / QUAT_SCALE) +
         ((encodeSmallestThree q).c : ℝ) / QUAT_SCALE *
          (((encodeSmallestThree q).c : ℝ) / QUAT_SCALE)))) ∧
    ∀ j, j < 4 →
      |(decodeSmallestThree (encodeSmallestThree q)).comp j -
        (if q.comp (maxAbsIdx q) < 0 then (-1 : ℝ) else 1) * q.comp j| ≤
        1 / 1000 := by
  have h1 := habs 0 (by norm_num)
  have h2 := habs 1 (by norm_num)
  have h3 := habs 3 (by norm_num)
  rw [hk] at h1 h2 h3
  simp only [Quat.comp] at h1 h2 h3
  have hsum : q.z ^ 2 + q.x ^ 2 + q.y ^ 2 + q.w ^ 2 = 1 := by linarith
  obtain ⟨⟨hc1, hc2, hc3⟩, hcB⟩ := smallestThree_core q.z q.x q.y q.w h1 h2 h3 hsum
  rw [hk]
  simp only [encodeSmallestThree, hk, Quat.comp]
  simp only [decodeSmallestThree]
  refine ⟨trivial, trivial, ?_⟩
  intro j hj
  interval_cases j <;> simp only [Quat.comp]
  · exact hc1
  · exact hc2
  · exact hcB
  · exact hc3

theorem smallestThree_roundtrip_case3 (q : Quat ℝ)
    (hq : q.x ^ 2 + q.y ^ 2 + q.z ^ 2 + q.w ^ 2 = 1)
    (hk : maxAbsIdx q = 3)
    (habs : ∀ i, i < 4 → |q.comp i| ≤ |q.comp (maxAbsIdx q)|) :
    (encodeSmallestThree q).idx = maxAbsIdx q ∧
    (decodeSmallestThree (encodeSmallestThree q)).comp (maxAbsIdx q) =
      Real.sqrt (max 0 (1 -
        (((encodeSmallestThree q).a : ℝ) / QUAT_SCALE *
          (((encodeSmallestThree q).a : ℝ) / QUAT_SCALE) +
         ((encodeSmallestThree q).b : ℝ) / QUAT_SCALE *
          (((encodeSmallestThree q).b : ℝ) / QUAT_SCALE) +
         ((encodeSmallestThree q).c : ℝ) / QUAT_SCALE *
          (((encodeSmallestThree q).c : ℝ) / QUAT_SCALE)))) ∧
    ∀ j, j < 4 →
      |(decodeSmallestThree (encodeSmallestThree q)).comp j -
        (if q.comp (maxAbsIdx q) < 0 then (-1 : ℝ) else 1) * q.comp j| ≤
        1 / 1000 := by
  have h1 := habs 0 (by norm_num)
  have h2 := habs 1 (by norm_num)
  have h3 := habs 2 (by norm_num)
  rw [hk] at h1 h2 h3
  simp only [Quat.comp] at h1 h2 h3
  have hsum : q.w ^ 2 + q.x ^ 2 + q.y ^ 2 + q.z ^ 2 = 1 := by linarith
  obtain ⟨⟨hc1, hc2, hc3⟩, hcB⟩ := smallestThree_core q.w q.x q.y q.z h1 h2 h3 hsum
  rw [hk]
  simp only [encodeSmallestThree, hk, Quat.comp]
  simp only [decodeSmallestThree]
  refine ⟨trivial, trivial, ?_⟩
  intro j hj
  interval_cases j <;> simp only [Quat.comp]
  · exact hc1
  · exact hc2
  · exact hc3
  · exact hcB

/-- Claim C3: for a unit-norm quaternion, the 7-byte smallest-three encoding
decodes by reconstructing the largest-magnitude component as
`√(max 0 (1 − a² − b² − c²))`, and every component of the decoded quaternion
is within 10⁻³ of the input, up to the global sign flip that makes the
largest component non-negative. -/
theorem smallestThree_roundtrip (q : Quat ℝ)
    (hq : q.x ^ 2 + q.y ^ 2 + q.z ^ 2 + q.w ^ 2 = 1) :
    (encodeSmallestThree q).idx = maxAbsIdx q ∧
    (decodeSmallestThree (encodeSmallestThree q)).comp (maxAbsIdx q) =
      Real.sqrt (max 0 (1 -
        (((encodeSmallestThree q).a : ℝ) / QUAT_SCALE *
          (((encodeSmallestThree q).a : ℝ) / QUAT_SCALE) +
         ((encodeSmallestThree q).b : ℝ) / QUAT_SCALE *
          (((encodeSmallestThree q).b : ℝ) / QUAT_SCALE) +
         ((encodeSmallestThree q).c : ℝ) / QUAT_SCALE *
          (((encodeSmallestThree q).c : ℝ) / QUAT_SCALE)))) ∧
    ∀ j, j < 4 →
      |(decodeSmallestThree (encodeSmallestThree q)).comp j -
        (if q.comp (maxAbsIdx q) < 0 then (-1 : ℝ) else 1) * q.comp j| ≤
        1 / 1000 := by
  obtain ⟨hlt, habs⟩ := maxAbsIdx_spec q
  have hk : maxAbsIdx q = 0 ∨ maxAbsIdx q = 1 ∨ maxAbsIdx q = 2 ∨
      maxAbsIdx q = 3 := by omega
  rcases hk with hk | hk | hk | hk
  · exact smallestThree_roundtrip_case0 q hq hk habs
  · exact smallestThree_roundtrip_case1 q hq hk habs
  · exact smallestThree_roundtrip_case2 q hq hk habs
  · exact smallestThree_roundtrip_case3 q hq hk habs

/-- The spec's test quaternion `(0, sin 45°, 0, cos 45°)`: a 90° rotation
about Y. -/
noncomputable def exQuat : Quat ℝ := ⟨0, Real.sqrt 2 / 2, 0, Real.sqrt 2 / 2⟩

theorem exQuat_unit :
    exQuat.x ^ 2 + exQuat.y ^ 2 + exQuat.z ^ 2 + exQuat.w ^ 2 = 1 := by
  have h2 : Real.sqrt 2 ^ 2 = 2 := Real.sq_sqrt (by norm_num)
  simp only [exQuat]
  ring_nf
  nlinarith [h2]

/-- Concrete instantiation of `smallestThree_roundtrip` at the spec's
quaternion `(0, sin 45°, 0, cos 45°)`. -/
theorem smallestThree_roundtrip_witness :
    exQuat.x ^ 2 + exQuat.y ^ 2 + exQuat.z ^ 2 + exQuat.w ^ 2 = 1 ∧
    (∀ j, j < 4 →
      |(decodeSmallestThree (encodeSmallestThree exQuat)).comp j -
        (if exQuat.comp (maxAbsIdx exQuat) < 0 then (-1 : ℝ) else 1) *
          exQuat.comp j| ≤ 1 / 1000) :=
  ⟨exQuat_unit, (smallestThree_roundtrip exQuat exQuat_unit).2.2⟩
